import Mathlib

/-!
# Verification of the labu orchestration core

A shallow embedding of the tos-network/labu conformance harness:

* the Controller state machine (`internal/controller/controller.go`),
* the result document types (`internal/results/results.go`),
* the control-plane HTTP handlers (`internal/api`),
* the simulator SDK (`labusim/labusim.go`),
* the run driver environment (modelled from the spec where the source is
  not available in this tree).

Go maps are embedded as association lists with unique-key map semantics:
`lookupA` finds the first binding, `insertA` replaces-or-appends, and
deletion filters every binding for the key.  Container-runtime calls go
through an explicit `Adapter` record of (possibly failing) operations, and
every operation additionally reports the list of adapter invocations it
performed, so that invocation-counting properties can be stated.  Wall
clock time (`results.NowRFC3339`) is embedded as a logical clock in the
controller state that every timestamp read increments.
-/

namespace Labu

/-! ## Association-list maps (Go `map` embedding) -/

def lookupA {κ ν : Type} [DecidableEq κ] : List (κ × ν) → κ → Option ν
  | [], _ => none
  | (k, v) :: rest, key => if k = key then some v else lookupA rest key

def insertA {κ ν : Type} [DecidableEq κ] : List (κ × ν) → κ → ν → List (κ × ν)
  | [], key, val => [(key, val)]
  | (k, v) :: rest, key, val =>
      if k = key then (key, val) :: rest else (k, v) :: insertA rest key val

/-- Go `delete(m, key)`: every binding for `key` is removed. -/
def eraseA {κ ν : Type} [DecidableEq κ] (l : List (κ × ν)) (key : κ) : List (κ × ν) :=
  l.filter (fun p => ¬ (p.1 = key))

/-- Modify the value bound to `key` in place; no-op when absent. -/
def updateA {κ ν : Type} [DecidableEq κ] (f : ν → ν) : List (κ × ν) → κ → List (κ × ν)
  | [], _ => []
  | (k, v) :: rest, key =>
      if k = key then (k, f v) :: rest else (k, v) :: updateA f rest key

/-- Go's `if _, ok := m[k]; !ok { m[k] = v }` idiom. -/
def insertIfAbsent {κ ν : Type} [DecidableEq κ] (l : List (κ × ν)) (key : κ) (val : ν) :
    List (κ × ν) :=
  if (lookupA l key).isSome then l else insertA l key val

theorem lookupA_insertA_self {κ ν : Type} [DecidableEq κ] (l : List (κ × ν)) (key : κ) (val : ν) :
    lookupA (insertA l key val) key = some val := by
  induction l with
  | nil => simp [insertA, lookupA]
  | cons p rest ih =>
      obtain ⟨k, v⟩ := p
      by_cases h : k = key
      · simp [insertA, lookupA, h]
      · simp [insertA, lookupA, h, ih]

theorem lookupA_insertA_ne {κ ν : Type} [DecidableEq κ] (l : List (κ × ν)) (key key' : κ)
    (val : ν) (h : key ≠ key') : lookupA (insertA l key val) key' = lookupA l key' := by
  induction l with
  | nil => simp [insertA, lookupA, h]
  | cons p rest ih =>
      obtain ⟨k, v⟩ := p
      by_cases hk : k = key
      · subst hk
        simp [insertA, lookupA, h]
      · by_cases hk' : k = key'
        · subst hk'
          simp [insertA, lookupA, hk, Ne.symm h]
        · simp [insertA, lookupA, hk, hk', ih]

theorem lookupA_eraseA_self {κ ν : Type} [DecidableEq κ] (l : List (κ × ν)) (key : κ) :
    lookupA (eraseA l key) key = none := by
  induction l with
  | nil => simp [eraseA, lookupA]
  | cons p rest ih =>
      obtain ⟨k, v⟩ := p
      by_cases h : k = key
      · simpa [eraseA, List.filter, h] using ih
      · simpa [eraseA, List.filter, h, lookupA] using ih

theorem lookupA_eraseA_ne {κ ν : Type} [DecidableEq κ] (l : List (κ × ν)) (key key' : κ)
    (h : key ≠ key') : lookupA (eraseA l key) key' = lookupA l key' := by
  induction l with
  | nil => simp [eraseA, lookupA]
  | cons p rest ih =>
      obtain ⟨k, v⟩ := p
      by_cases hk : k = key
      · subst hk
        simpa [eraseA, List.filter, lookupA, h, Ne.symm h] using ih
      · by_cases hk' : k = key'
        · subst hk'
          simp [eraseA, List.filter, Ne.symm h, lookupA]
        · simpa [eraseA, List.filter, hk, hk', lookupA] using ih

theorem lookupA_updateA_self {κ ν : Type} [DecidableEq κ] (f : ν → ν) (l : List (κ × ν))
    (key : κ) (v : ν) (h : lookupA l key = some v) :
    lookupA (updateA f l key) key = some (f v) := by
  induction l with
  | nil => simp [lookupA] at h
  | cons p rest ih =>
      obtain ⟨k, w⟩ := p
      by_cases hk : k = key
      · subst hk
        simp [lookupA] at h
        simp [updateA, lookupA, h]
      · simp [lookupA, hk] at h
        simp [updateA, lookupA, hk, ih h]

theorem lookupA_map_value {κ ν μ : Type} [DecidableEq κ] (f : ν → μ) (l : List (κ × ν)) (key : κ) :
    lookupA (l.map (fun p => (p.1, f p.2))) key = (lookupA l key).map f := by
  induction l with
  | nil => simp [lookupA]
  | cons p rest ih =>
      obtain ⟨k, v⟩ := p
      by_cases hk : k = key
      · simp [lookupA, hk]
      · simp [lookupA, hk, ih]

theorem lookupA_insertIfAbsent_of_some {κ ν : Type} [DecidableEq κ] (l : List (κ × ν))
    (key key' : κ) (val v : ν) (h : lookupA l key' = some v) :
    lookupA (insertIfAbsent l key val) key' = some v := by
  unfold insertIfAbsent
  by_cases hs : (lookupA l key).isSome
  · simp [hs, h]
  · have hne : key ≠ key' := by
      rintro rfl
      rw [h] at hs
      simp at hs
    simp [hs, lookupA_insertA_ne l key key' val hne, h]

/-! ## Result document (`internal/results/results.go`) -/

structure SummaryResult where
  pass : Bool
  details : String
  deriving Repr, DecidableEq

structure ClientInfo where
  ip : String
  name : String
  instantiatedAt : Nat
  logFile : String
  deriving Repr, DecidableEq

structure TestCaseResult where
  name : String
  description : String
  start : Nat
  finish : Nat
  summaryResult : SummaryResult
  clientInfo : List (String × ClientInfo)
  deriving Repr, DecidableEq

structure SuiteResult where
  id : Nat
  name : String
  description : String
  clientVersions : List (String × String)
  simLog : String
  testCases : List (String × TestCaseResult)
  deriving Repr, DecidableEq

/-! ## Controller live state (`internal/controller/controller.go`) -/

structure NodeRec where
  id : String
  clientName : String
  containerID : String
  ip : String
  logFile : String
  instantiatedAt : Nat
  deriving Repr, DecidableEq

structure TestRec where
  id : Nat
  name : String
  description : String
  start : Nat
  finish : Nat
  pass : Bool
  details : String
  nodes : List (String × NodeRec)
  deriving Repr, DecidableEq

structure SuiteRec where
  id : Nat
  name : String
  description : String
  tests : List (Nat × TestRec)
  deriving Repr, DecidableEq

structure ClientDef where
  name : String
  dir : String
  deriving Repr, DecidableEq

structure ClientLaunchConfig where
  client : String
  networks : List String
  environment : List (String × String)
  deriving Repr, DecidableEq

structure NodeInfoT where
  id : String
  ip : String
  deriving Repr, DecidableEq

/-- The Controller's mutable state.  `clock` is the logical wall clock read by
`results.NowRFC3339`; every read returns the current value and advances it. -/
structure CState where
  workspace : String
  suiteSeq : Nat
  testSeq : Nat
  clock : Nat
  suites : List (Nat × SuiteRec)
  clients : List (String × ClientDef)
  networks : List String
  results : List (Nat × SuiteResult)
  imageOverrides : List (String × String)
  deriving Repr, DecidableEq

/-- A Controller freshly created by `controller.New` (counters zero, all maps
empty) with the given workspace and client definitions. -/
def initState (workspace : String) (clients : List (String × ClientDef)) : CState :=
  { workspace := workspace
    suiteSeq := 0
    testSeq := 0
    clock := 0
    suites := []
    clients := clients
    networks := []
    results := []
    imageOverrides := [] }

/-! ## Container-runtime adapter (`internal/docker/runner.go` capability set) -/

structure RunConfigA where
  image : String
  env : List (String × String)
  mounts : List String
  network : String
  deriving Repr, DecidableEq

inductive AdapterCall where
  | build (dir dockerfile tag : String)
  | runContainer (cfg : RunConfigA)
  | inspect (network containerId : String)
  | removeContainer (id : String)
  | createNetwork (name : String)
  | removeNetwork (name : String)
  deriving Repr, DecidableEq

/-- The container runtime as a record of (possibly failing) capabilities.
Deterministic functions stand in for the external engine. -/
structure Adapter where
  buildImage : String → String → String → Except String Unit
  runContainer : RunConfigA → Except String String
  inspectIP : String → String → Except String String
  removeContainer : String → Except String Unit
  createNetwork : String → Except String Unit
  removeNetwork : String → Except String Unit

/-- An adapter on which every operation succeeds. -/
def okAdapter : Adapter :=
  { buildImage := fun _ _ _ => .ok ()
    runContainer := fun _ => .ok "cid0"
    inspectIP := fun _ _ => .ok "10.0.0.2"
    removeContainer := fun _ => .ok ()
    createNetwork := fun _ => .ok ()
    removeNetwork := fun _ => .ok () }

namespace Controller

/-- `Controller.CreateSuite`: allocate the next suite id, a live `Suite` with
an empty test map, and a `SuiteResult` with empty `clientVersions` and
`testCases` maps.  Never fails. -/
def CreateSuite (c : CState) (name description : String) : Nat × CState :=
  let id := c.suiteSeq + 1
  (id,
   { c with
       suiteSeq := id
       suites := insertA c.suites id ⟨id, name, description, []⟩
       results := insertA c.results id ⟨id, name, description, [], "", []⟩ })

/-- `Controller.EndSuite`: delete the live suite record; the `SuiteResult` is
untouched. -/
def EndSuite (c : CState) (id : Nat) : Except String CState :=
  match lookupA c.suites id with
  | none => .error "suite not found"
  | some _ => .ok { c with suites := eraseA c.suites id }

/-- `Controller.CreateTest`: allocate the next (globally sequential) test id
inside the given suite, recording the start timestamp. -/
def CreateTest (c : CState) (suiteId : Nat) (name description : String) :
    Except String (Nat × CState) :=
  match lookupA c.suites suiteId with
  | none => .error "suite not found"
  | some s =>
      let id := c.testSeq + 1
      let t : TestRec := ⟨id, name, description, c.clock, 0, false, "", []⟩
      .ok (id,
        { c with
            testSeq := id
            clock := c.clock + 1
            suites := insertA c.suites suiteId { s with tests := insertA s.tests id t } })

/-- The `ClientInfo` snapshot `Controller.EndTest` takes of a registered node. -/
def clientInfoOfNode (n : NodeRec) : ClientInfo :=
  ⟨n.ip, n.clientName, n.instantiatedAt, n.logFile⟩

/-- `Controller.EndTest`: record end timestamp, pass flag and details on the
live test, write a `TestCaseResult` (with a `ClientInfo` snapshot of the
test's node map) into the suite's result keyed by the decimal test id, then
remove every node container of the test (the emitted adapter calls). -/
def EndTest (c : CState) (suiteId testId : Nat) (pass : Bool) (details : String) :
    Except String (CState × List AdapterCall) :=
  match lookupA c.suites suiteId with
  | none => .error "suite not found"
  | some s =>
      match lookupA s.tests testId with
      | none => .error "test not found"
      | some t =>
          let t' := { t with pass := pass, details := details, finish := c.clock }
          let caseResult : TestCaseResult :=
            ⟨t.name, t.description, t.start, c.clock, ⟨pass, details⟩,
             t.nodes.map (fun p => (p.1, clientInfoOfNode p.2))⟩
          let c' :=
            { c with
                clock := c.clock + 1
                suites := insertA c.suites suiteId { s with tests := insertA s.tests testId t' }
                results :=
                  updateA
                    (fun r =>
                      { r with testCases := insertA r.testCases (toString testId) caseResult })
                    c.results suiteId }
          .ok (c', t.nodes.map (fun p => AdapterCall.removeContainer p.2.containerID))

/-- The image resolution step of `Controller.LaunchNode`: use the caller's
override when one is registered, otherwise derive `labu-client-<name>` and
build it from the client's Dockerfile. -/
def buildStep (a : Adapter) (override dir client : String) :
    Except String String × List AdapterCall :=
  if override = "" then
    let tag := "labu-client-" ++ client
    match a.buildImage dir "Dockerfile" tag with
    | .error e => (.error e, [.build dir "Dockerfile" tag])
    | .ok _ => (.ok tag, [.build dir "Dockerfile" tag])
  else (.ok override, [])

/-- `Controller.LaunchNode`: validate ids and client, build the image unless
an override is registered, derive the per-node environment and mounts, start
the container, query its IP (errors ignored), and register the node under
the container id. -/
def LaunchNode (a : Adapter) (c : CState) (suiteId testId : Nat)
    (cfg : ClientLaunchConfig) (files : List (String × String)) :
    Except String NodeInfoT × CState × List AdapterCall :=
  match lookupA c.suites suiteId with
  | none => (.error "suite not found", c, [])
  | some s =>
      match lookupA s.tests testId with
      | none => (.error "test not found", c, [])
      | some _ =>
          match lookupA c.clients cfg.client with
          | none => (.error "unknown client", c, [])
          | some clientDef =>
              let imageOverride := (lookupA c.imageOverrides cfg.client).getD ""
              match buildStep a imageOverride clientDef.dir cfg.client with
              | (.error e, tr) => (.error e, c, tr)
              | (.ok imageTag, tr) =>
                  let nodeDir :=
                    c.workspace ++ "/nodes/suite-" ++ toString suiteId ++ "/test-" ++
                      toString testId
                  let env0 := cfg.environment
                  let env1 := insertA env0 "LABU_FILES_DIR" "/labu-files"
                  let env2 := insertIfAbsent env1 "LABU_STATE_DIR" "/state"
                  let env3 :=
                    insertIfAbsent env2 "LABU_NETWORK"
                      (match cfg.networks with
                       | netw :: _ => netw
                       | [] => "devnet")
                  let runCfg : RunConfigA :=
                    ⟨imageTag, env3, [nodeDir ++ ":/labu-files:ro"], "labu-net"⟩
                  match a.runContainer runCfg with
                  | .error e => (.error e, c, tr ++ [.runContainer runCfg])
                  | .ok containerID =>
                      let ip :=
                        match a.inspectIP "labu-net" containerID with
                        | .ok s => s
                        | .error _ => ""
                      let node : NodeRec :=
                        ⟨containerID, cfg.client, containerID, ip,
                         "clients/" ++ cfg.client ++ "/client-" ++ containerID ++ ".log",
                         c.clock⟩
                      let c' :=
                        { c with
                            clock := c.clock + 1
                            suites :=
                              updateA
                                (fun su =>
                                  { su with
                                      tests :=
                                        updateA
                                          (fun t => { t with nodes := insertA t.nodes node.id node })
                                          su.tests testId })
                                c.suites suiteId }
                      (.ok ⟨containerID, ip⟩, c',
                       tr ++ [.runContainer runCfg, .inspect "labu-net" containerID])

/-- `Controller.CreateNetwork`: already-known names return success without an
adapter call; otherwise the name joins the active set and the adapter is
invoked once. -/
def CreateNetwork (a : Adapter) (c : CState) (name : String) :
    Except String Unit × CState × List AdapterCall :=
  if name ∈ c.networks then (.ok (), c, [])
  else
    (a.createNetwork name, { c with networks := name :: c.networks },
     [.createNetwork name])

/-- `Controller.RemoveNetwork`: drop the name from the active set and invoke
the adapter unconditionally. -/
def RemoveNetwork (a : Adapter) (c : CState) (name : String) :
    Except String Unit × CState × List AdapterCall :=
  (a.removeNetwork name, { c with networks := c.networks.filter (fun m => ¬ (m = name)) },
   [.removeNetwork name])

/-- `Controller.RemoveNode`: adapter pass-through. -/
def RemoveNode (a : Adapter) (c : CState) (containerId : String) :
    Except String Unit × CState × List AdapterCall :=
  (a.removeContainer containerId, c, [.removeContainer containerId])

/-- `Controller.SetClientVersions`: ensure each named client has a key in
every held `SuiteResult`'s `clientVersions` map. -/
def SetClientVersions (c : CState) (names : List String) : CState :=
  { c with
      results :=
        c.results.map
          (fun p =>
            (p.1,
             { p.2 with
                 clientVersions :=
                   names.foldl (fun m n => insertIfAbsent m n "") p.2.clientVersions })) }

/-- `Controller.SetSimLog`: decorate every held `SuiteResult`. -/
def SetSimLog (c : CState) (logFile : String) : CState :=
  { c with results := c.results.map (fun p => (p.1, { p.2 with simLog := logFile })) }

end Controller

/-! ## Control-plane HTTP server (`internal/api`) -/

structure HResp where
  status : Nat
  body : String
  deriving Repr, DecidableEq

/-- `writeError`: status code plus body `{"error":"<message>"}`. -/
def writeErrorS (code : Nat) (msg : String) : HResp :=
  ⟨code, "\x7b\"error\":\"" ++ msg ++ "\"\x7d"⟩

/-- `Server.handleNode` on `POST /testsuite/{s}/test/{t}/node` after the
multipart body parsed: call `LaunchNode`; any controller error is written
with `http.StatusInternalServerError`. -/
def handleNodeLaunch (a : Adapter) (c : CState) (suiteId testId : Nat)
    (cfg : ClientLaunchConfig) (files : List (String × String)) :
    HResp × CState × List AdapterCall :=
  match Controller.LaunchNode a c suiteId testId cfg files with
  | (.error e, c', tr) => (writeErrorS 500 e, c', tr)
  | (.ok info, c', tr) =>
      (⟨200, "\x7b\"id\":\"" ++ info.id ++ "\",\"ip\":\"" ++ info.ip ++ "\"\x7d"⟩, c', tr)

/-! ## Simulator SDK (`labusim/labusim.go`) -/

def EnvSimulator : String := "LABU_SIMULATOR"

def EnvTestPattern : String := "LABU_TEST_PATTERN"

def EnvClients : String := "LABU_CLIENTS"

def EnvVectorDir : String := "LABU_VECTOR_DIR"

/-- The SDK test-context object `T` (pass/details accumulator). -/
structure TRec where
  suiteId : Nat
  testId : Nat
  name : String
  description : String
  failed : Bool
  details : String
  deriving Repr, DecidableEq

/-- `T.Fail`. -/
def TRec.failWith (t : TRec) (details : String) : TRec :=
  { t with failed := true, details := details }

/-- The SDK `Client` handle. -/
structure ClientHandle where
  suiteId : Nat
  testId : Nat
  id : String
  ip : String
  client : String
  deriving Repr, DecidableEq

/-- `labusim.TestSpec`; `run` is the test body as a pure transformer of the
test context. -/
structure TestSpecS where
  name : String
  description : String
  run : TRec → TRec

/-- `labusim.ClientTestSpec`. -/
structure ClientTestSpecS where
  name : String
  description : String
  client : String
  networks : List String
  environment : List (String × String)
  files : List (String × String)
  run : TRec → ClientHandle → TRec

/-- `labusim.Suite`. -/
structure SDKSuite where
  name : String
  description : String
  tests : List TestSpecS
  clientTests : List ClientTestSpecS

/-- The environment the SDK reads (`LABU_VECTOR_DIR` and the vector
directory's contents, as observed by `os.Stat` and `filepath.Glob`).
`vectorDir = ""` means the variable is unset; `jsonGlob` holds the basenames
matched by `Glob(vectorDir/*.json)`. -/
structure VectorEnv where
  vectorDir : String
  hasAccounts : Bool
  hasGenesis : Bool
  jsonGlob : List String
  deriving Repr, DecidableEq

/-- One iteration of the `*.json` glob loop in `applyDefaultClientFiles`. -/
def applyGlobStep (vectorDir : String) (spec : ClientTestSpecS) (base : String) :
    ClientTestSpecS :=
  if base = "accounts.json" ∨ base = "genesis_state.json" then spec
  else
    let spec := { spec with files := insertIfAbsent spec.files base (vectorDir ++ "/" ++ base) }
    if base = "config.json" then
      { spec with
          environment :=
            insertIfAbsent spec.environment "LABU_CONFIG_PATH" "/labu-files/config.json" }
    else spec

/-- `labusim.applyDefaultClientFiles`: decorate a launch spec with the vector
directory's files, never overwriting caller-supplied keys. -/
def applyDefaultClientFiles (v : VectorEnv) (spec : ClientTestSpecS) : ClientTestSpecS :=
  if v.vectorDir = "" then spec
  else
    let spec :=
      if v.hasAccounts then
        { spec with
            files := insertIfAbsent spec.files "accounts.json" (v.vectorDir ++ "/accounts.json")
            environment :=
              insertIfAbsent spec.environment "LABU_ACCOUNTS_PATH"
                "/labu-files/accounts.json" }
      else spec
    let spec :=
      if v.hasGenesis then
        { spec with
            files :=
              insertIfAbsent spec.files "genesis_state.json"
                (v.vectorDir ++ "/genesis_state.json")
            environment :=
              insertIfAbsent spec.environment "LABU_GENESIS_STATE_PATH"
                "/labu-files/genesis_state.json" }
      else spec
    v.jsonGlob.foldl (applyGlobStep v.vectorDir) spec

/-- `Sim.launchClient`: decorate the spec, then `POST …/node`, which the
server hands to `Controller.LaunchNode` with the config and files of the
decorated spec. -/
def launchClientM (a : Adapter) (v : VectorEnv) (c : CState) (suiteId testId : Nat)
    (spec : ClientTestSpecS) : Except String NodeInfoT × CState × List AdapterCall :=
  let spec := applyDefaultClientFiles v spec
  Controller.LaunchNode a c suiteId testId ⟨spec.client, spec.networks, spec.environment⟩
    spec.files

/-- The SDK's compiled name filter: `none` when `LABU_TEST_PATTERN` is unset. -/
def matchName (pattern : Option (String → Bool)) (name : String) : Bool :=
  match pattern with
  | none => true
  | some p => p name

/-- `RunSuite`'s loop over free-form `TestSpec`s: create the test, run the
body, finalize with the accumulated verdict; any API error aborts. -/
def runTestsM (sim : Option (String → Bool)) (suiteId : Nat) (c : CState) :
    List TestSpecS → Except String Unit × CState × List AdapterCall
  | [] => (.ok (), c, [])
  | spec :: rest =>
      if matchName sim spec.name then
        match Controller.CreateTest c suiteId spec.name spec.description with
        | .error e => (.error e, c, [])
        | .ok (testId, c1) =>
            let t : TRec := ⟨suiteId, testId, spec.name, spec.description, false, ""⟩
            let t2 := spec.run t
            match Controller.EndTest c1 suiteId testId (!t2.failed) t2.details with
            | .error e => (.error e, c1, [])
            | .ok (c2, tr2) =>
                let (r, c3, tr3) := runTestsM sim suiteId c2 rest
                (r, c3, tr2 ++ tr3)
      else runTestsM sim suiteId c rest

/-- `RunSuite`'s loop over `ClientTestSpec`s: create the test and auto-launch
the client; on launch failure mark the test failed (`client launch failed:`
prefix), issue `EndTest` with `pass = false` (its error ignored) and
continue with the remaining tests; on success run the body and finalize. -/
def runClientTestsM (a : Adapter) (sim : Option (String → Bool)) (v : VectorEnv)
    (suiteId : Nat) (c : CState) :
    List ClientTestSpecS → Except String Unit × CState × List AdapterCall
  | [] => (.ok (), c, [])
  | spec :: rest =>
      if matchName sim spec.name then
        match Controller.CreateTest c suiteId spec.name spec.description with
        | .error e => (.error e, c, [])
        | .ok (testId, c1) =>
            let t : TRec := ⟨suiteId, testId, spec.name, spec.description, false, ""⟩
            match launchClientM a v c1 suiteId testId spec with
            | (.error e, c2, tr2) =>
                let t2 := t.failWith ("client launch failed: " ++ e)
                match Controller.EndTest c2 suiteId testId false t2.details with
                | .ok (c3, tr3) =>
                    let (r, c4, tr4) := runClientTestsM a sim v suiteId c3 rest
                    (r, c4, tr2 ++ tr3 ++ tr4)
                | .error _ =>
                    let (r, c4, tr4) := runClientTestsM a sim v suiteId c2 rest
                    (r, c4, tr2 ++ tr4)
            | (.ok info, c2, tr2) =>
                let handle : ClientHandle := ⟨suiteId, testId, info.id, info.ip, spec.client⟩
                let t2 := spec.run t handle
                match Controller.EndTest c2 suiteId testId (!t2.failed) t2.details with
                | .error e => (.error e, c2, tr2)
                | .ok (c3, tr3) =>
                    let (r, c4, tr4) := runClientTestsM a sim v suiteId c3 rest
                    (r, c4, tr2 ++ tr3 ++ tr4)
      else runClientTestsM a sim v suiteId c rest

/-- The deferred `sim.endSuite(suiteID)` call: its error is discarded. -/
def endSuiteIgnore (c : CState) (suiteId : Nat) : CState :=
  match Controller.EndSuite c suiteId with
  | .ok c' => c'
  | .error _ => c

/-- `labusim.RunSuite`: create the suite, run the matching free-form tests,
then the matching client tests, and delete the suite regardless of outcome. -/
def RunSuiteM (a : Adapter) (sim : Option (String → Bool)) (v : VectorEnv) (c : CState)
    (suite : SDKSuite) : Except String Unit × CState × List AdapterCall :=
  let (suiteId, c1) := Controller.CreateSuite c suite.name suite.description
  let (r1, c2, tr1) := runTestsM sim suiteId c1 suite.tests
  match r1 with
  | .error e => (.error e, endSuiteIgnore c2 suiteId, tr1)
  | .ok _ =>
      let (r2, c3, tr2) := runClientTestsM a sim v suiteId c2 suite.clientTests
      (r2, endSuiteIgnore c3 suiteId, tr1 ++ tr2)

/-! ## Run driver environment

Modelled from the spec: the labu run driver (`internal/sim`) is not part of
this source tree — only the control flow documented in §4.4/§6 of the spec
("Environment passed to the simulator container": `LABU_SIMULATOR`,
`LABU_TEST_PATTERN`, `LABU_PARALLELISM`, `LABU_RANDOM_SEED`,
`LABU_LOGLEVEL`, `LABU_CLIENTS`, and `LABU_VECTOR_DIR=/vectors` when a
vectors directory is given). -/

structure RunOpts where
  simulatorAddr : String
  limitPattern : String
  parallelism : Nat
  randomSeed : Nat
  logLevel : Nat
  clients : List String
  vectorsDir : String
  deriving Repr, DecidableEq

/-- Comma-separated join of the client names. -/
def joinCSV : List String → String
  | [] => ""
  | x :: rest => rest.foldl (fun acc s => acc ++ "," ++ s) x

/-- Modelled from the spec: the environment the run driver injects into the
simulator container. -/
def simEnv (o : RunOpts) : List (String × String) :=
  [("LABU_SIMULATOR", "http://" ++ o.simulatorAddr),
   ("LABU_TEST_PATTERN", o.limitPattern),
   ("LABU_PARALLELISM", toString o.parallelism),
   ("LABU_RANDOM_SEED", toString o.randomSeed),
   ("LABU_LOGLEVEL", toString o.logLevel),
   ("LABU_CLIENTS", joinCSV o.clients)] ++
    (if o.vectorsDir = "" then [] else [("LABU_VECTOR_DIR", "/vectors")])

/-! ## Operation sequences over the Controller -/

/-- A control-plane call, as the Controller sees it. -/
inductive Op where
  | createSuite (name description : String)
  | endSuite (id : Nat)
  | createTest (suiteId : Nat) (name description : String)
  | endTest (suiteId testId : Nat) (pass : Bool) (details : String)
  | launchNode (suiteId testId : Nat) (cfg : ClientLaunchConfig)
      (files : List (String × String))
  | createNetwork (name : String)
  | removeNetwork (name : String)
  | removeNode (id : String)
  | setClientVersions (names : List String)
  | setSimLog (name : String)
  deriving Repr

/-- What one call returned to its caller. -/
inductive Ret where
  | suiteId (n : Nat)
  | testId (n : Nat)
  | node (info : NodeInfoT)
  | ok
  | fail (msg : String)
  deriving Repr, DecidableEq

/-- Execute one operation: next state, adapter calls performed, return value. -/
def stepOp (a : Adapter) (c : CState) : Op → CState × List AdapterCall × Ret
  | .createSuite name description =>
      let (id, c') := Controller.CreateSuite c name description
      (c', [], .suiteId id)
  | .endSuite id =>
      match Controller.EndSuite c id with
      | .ok c' => (c', [], .ok)
      | .error e => (c, [], .fail e)
  | .createTest suiteId name description =>
      match Controller.CreateTest c suiteId name description with
      | .ok (id, c') => (c', [], .testId id)
      | .error e => (c, [], .fail e)
  | .endTest suiteId testId pass details =>
      match Controller.EndTest c suiteId testId pass details with
      | .ok (c', tr) => (c', tr, .ok)
      | .error e => (c, [], .fail e)
  | .launchNode suiteId testId cfg files =>
      match Controller.LaunchNode a c suiteId testId cfg files with
      | (.ok info, c', tr) => (c', tr, .node info)
      | (.error e, c', tr) => (c', tr, .fail e)
  | .createNetwork name =>
      match Controller.CreateNetwork a c name with
      | (.ok _, c', tr) => (c', tr, .ok)
      | (.error e, c', tr) => (c', tr, .fail e)
  | .removeNetwork name =>
      match Controller.RemoveNetwork a c name with
      | (.ok _, c', tr) => (c', tr, .ok)
      | (.error e, c', tr) => (c', tr, .fail e)
  | .removeNode id =>
      match Controller.RemoveNode a c id with
      | (.ok _, c', tr) => (c', tr, .ok)
      | (.error e, c', tr) => (c', tr, .fail e)
  | .setClientVersions names => (Controller.SetClientVersions c names, [], .ok)
  | .setSimLog name => (Controller.SetSimLog c name, [], .ok)

/-- Execute a sequence of operations, concatenating adapter traces and
collecting return values in order. -/
def runOps (a : Adapter) (c : CState) : List Op → CState × List AdapterCall × List Ret
  | [] => (c, [], [])
  | op :: rest =>
      let (c1, tr1, r1) := stepOp a c op
      let (c2, tr2, rs) := runOps a c1 rest
      (c2, tr1 ++ tr2, r1 :: rs)

/-- The suite ids handed back by `CreateSuite` calls in a run. -/
def suiteIdsOf (rs : List Ret) : List Nat :=
  rs.filterMap (fun r => match r with | .suiteId n => some n | _ => none)

/-- The test ids handed back by `CreateTest` calls in a run. -/
def testIdsOf (rs : List Ret) : List Nat :=
  rs.filterMap (fun r => match r with | .testId n => some n | _ => none)

/-! ## Characterization lemmas for the Controller operations -/

theorem EndSuite_ok (c : CState) (id : Nat) (c' : CState)
    (h : Controller.EndSuite c id = .ok c') :
    (lookupA c.suites id).isSome ∧ c' = { c with suites := eraseA c.suites id } := by
  unfold Controller.EndSuite at h
  split at h
  · exact absurd h (by simp)
  · rename_i s hs
    simp only [Except.ok.injEq] at h
    exact ⟨by simp [hs], h.symm⟩

theorem EndSuite_error (c : CState) (id : Nat) (e : String)
    (h : Controller.EndSuite c id = .error e) :
    lookupA c.suites id = none ∧ e = "suite not found" := by
  unfold Controller.EndSuite at h
  split at h
  · rename_i hs
    simp only [Except.error.injEq] at h
    exact ⟨hs, h.symm⟩
  · exact absurd h (by simp)

theorem CreateTest_ok (c : CState) (sid : Nat) (nm ds : String) (id : Nat) (c' : CState)
    (h : Controller.CreateTest c sid nm ds = .ok (id, c')) :
    ∃ s, lookupA c.suites sid = some s ∧ id = c.testSeq + 1 ∧
      c' = { c with
               testSeq := c.testSeq + 1
               clock := c.clock + 1
               suites :=
                 insertA c.suites sid
                   { s with
                       tests :=
                         insertA s.tests (c.testSeq + 1)
                           ⟨c.testSeq + 1, nm, ds, c.clock, 0, false, "", []⟩ } } := by
  unfold Controller.CreateTest at h
  split at h
  · exact absurd h (by simp)
  · rename_i s hs
    simp only [Except.ok.injEq, Prod.mk.injEq] at h
    exact ⟨s, hs, h.1.symm, h.2.symm⟩

theorem CreateTest_error (c : CState) (sid : Nat) (nm ds : String) (e : String)
    (h : Controller.CreateTest c sid nm ds = .error e) :
    lookupA c.suites sid = none ∧ e = "suite not found" := by
  unfold Controller.CreateTest at h
  split at h
  · rename_i hs
    simp only [Except.error.injEq] at h
    exact ⟨hs, h.symm⟩
  · exact absurd h (by simp)

/-- The state and trace `Controller.EndTest` produces on success, in terms of
the looked-up suite and test records. -/
def endTestState (c : CState) (suiteId testId : Nat) (pass : Bool) (details : String)
    (s : SuiteRec) (t : TestRec) : CState :=
  { c with
      clock := c.clock + 1
      suites :=
        insertA c.suites suiteId
          { s with
              tests :=
                insertA s.tests testId
                  { t with pass := pass, details := details, finish := c.clock } }
      results :=
        updateA
          (fun r =>
            { r with
                testCases :=
                  insertA r.testCases (toString testId)
                    ⟨t.name, t.description, t.start, c.clock, ⟨pass, details⟩,
                     t.nodes.map (fun p => (p.1, Controller.clientInfoOfNode p.2))⟩ })
          c.results suiteId }

theorem EndTest_ok (c : CState) (sid tid : Nat) (pass : Bool) (details : String)
    (c' : CState) (tr : List AdapterCall)
    (h : Controller.EndTest c sid tid pass details = .ok (c', tr)) :
    ∃ s t, lookupA c.suites sid = some s ∧ lookupA s.tests tid = some t ∧
      c' = endTestState c sid tid pass details s t ∧
      tr = t.nodes.map (fun p => AdapterCall.removeContainer p.2.containerID) := by
  unfold Controller.EndTest at h
  split at h
  · exact absurd h (by simp)
  · rename_i s hs
    split at h
    · exact absurd h (by simp)
    · rename_i t ht
      simp only [Except.ok.injEq, Prod.mk.injEq] at h
      exact ⟨s, t, hs, ht, h.1.symm, h.2.symm⟩

theorem EndTest_error (c : CState) (sid tid : Nat) (pass : Bool) (details : String)
    (e : String) (h : Controller.EndTest c sid tid pass details = .error e) :
    lookupA c.suites sid = none ∨
      ∃ s, lookupA c.suites sid = some s ∧ lookupA s.tests tid = none := by
  unfold Controller.EndTest at h
  split at h
  · rename_i hs
    exact .inl hs
  · rename_i s hs
    split at h
    · rename_i ht
      exact .inr ⟨s, hs, ht⟩
    · exact absurd h (by simp)

theorem EndTest_total (c : CState) (sid tid : Nat) (pass : Bool) (details : String)
    (s : SuiteRec) (t : TestRec) (hs : lookupA c.suites sid = some s)
    (ht : lookupA s.tests tid = some t) :
    Controller.EndTest c sid tid pass details =
      .ok (endTestState c sid tid pass details s t,
           t.nodes.map (fun p => AdapterCall.removeContainer p.2.containerID)) := by
  simp only [Controller.EndTest, hs, ht, endTestState]

theorem LaunchNode_state (a : Adapter) (c : CState) (s t : Nat)
    (cfg : ClientLaunchConfig) (files : List (String × String)) :
    (Controller.LaunchNode a c s t cfg files).2.1.suiteSeq = c.suiteSeq ∧
      (Controller.LaunchNode a c s t cfg files).2.1.testSeq = c.testSeq ∧
      (Controller.LaunchNode a c s t cfg files).2.1.networks = c.networks := by
  unfold Controller.LaunchNode
  repeat' (first | split | simp only [])
  all_goals simp

/-! ## Identifier monotonicity across operation sequences -/

theorem stepOp_counters (a : Adapter) (c : CState) (op : Op) :
    c.suiteSeq ≤ (stepOp a c op).1.suiteSeq ∧ c.testSeq ≤ (stepOp a c op).1.testSeq := by
  cases op with
  | createSuite name description => simp [stepOp, Controller.CreateSuite]
  | endSuite id =>
      simp only [stepOp]
      split
      · rename_i c' h
        rcases EndSuite_ok c id c' h with ⟨-, rfl⟩
        simp
      · simp
  | createTest sid name description =>
      simp only [stepOp]
      split
      · rename_i id c' h
        rcases CreateTest_ok c sid name description id c' h with ⟨s, -, -, rfl⟩
        simp
      · simp
  | endTest sid tid pass details =>
      simp only [stepOp]
      split
      · rename_i c' tr h
        rcases EndTest_ok c sid tid pass details c' tr h with ⟨s, t, -, -, rfl, -⟩
        simp [endTestState]
      · simp
  | launchNode sid tid cfg files =>
      have h := LaunchNode_state a c sid tid cfg files
      simp only [stepOp]
      split
      all_goals rename_i heq
      all_goals rw [heq] at h
      all_goals simp_all
  | createNetwork name =>
      simp only [stepOp, Controller.CreateNetwork]
      split
      all_goals rename_i heq
      all_goals split at heq
      all_goals simp_all
      all_goals simp [← heq.2.1]
  | removeNetwork name =>
      simp only [stepOp, Controller.RemoveNetwork]
      split
      all_goals rename_i heq
      all_goals simp_all
      all_goals simp [← heq.2.1]
  | removeNode id =>
      simp only [stepOp, Controller.RemoveNode]
      split
      all_goals rename_i heq
      all_goals simp_all
  | setClientVersions names => simp [stepOp, Controller.SetClientVersions]
  | setSimLog name => simp [stepOp, Controller.SetSimLog]

theorem stepOp_ret_suiteId (a : Adapter) (c : CState) (op : Op) (n : Nat)
    (h : (stepOp a c op).2.2 = .suiteId n) :
    n = c.suiteSeq + 1 ∧ (stepOp a c op).1.suiteSeq = c.suiteSeq + 1 := by
  cases op with
  | createSuite name description =>
      simp [stepOp, Controller.CreateSuite] at h ⊢
      omega
  | endSuite id =>
      simp only [stepOp] at h
      split at h
      all_goals simp_all
  | createTest sid name description =>
      simp only [stepOp] at h
      split at h
      all_goals simp_all
  | endTest sid tid pass details =>
      simp only [stepOp] at h
      split at h
      all_goals simp_all
  | launchNode sid tid cfg files =>
      simp only [stepOp] at h
      split at h
      all_goals simp_all
  | createNetwork name =>
      simp only [stepOp] at h
      split at h
      all_goals simp_all
  | removeNetwork name =>
      simp only [stepOp] at h
      split at h
      all_goals simp_all
  | removeNode id =>
      simp only [stepOp] at h
      split at h
      all_goals simp_all
  | setClientVersions names => simp [stepOp] at h
  | setSimLog name => simp [stepOp] at h

theorem stepOp_ret_testId (a : Adapter) (c : CState) (op : Op) (n : Nat)
    (h : (stepOp a c op).2.2 = .testId n) :
    n = c.testSeq + 1 ∧ (stepOp a c op).1.testSeq = c.testSeq + 1 := by
  cases op with
  | createSuite name description => simp [stepOp, Controller.CreateSuite] at h
  | endSuite id =>
      simp only [stepOp] at h
      split at h
      all_goals simp_all
  | createTest sid name description =>
      simp only [stepOp] at h ⊢
      split at h
      · rename_i id c' heq
        rcases CreateTest_ok c sid name description id c' heq with ⟨s, -, rfl, rfl⟩
        simp only [Ret.testId.injEq] at h
        simp [← h]
      · simp_all
  | endTest sid tid pass details =>
      simp only [stepOp] at h
      split at h
      all_goals simp_all
  | launchNode sid tid cfg files =>
      simp only [stepOp] at h
      split at h
      all_goals simp_all
  | createNetwork name =>
      simp only [stepOp] at h
      split at h
      all_goals simp_all
  | removeNetwork name =>
      simp only [stepOp] at h
      split at h
      all_goals simp_all
  | removeNode id =>
      simp only [stepOp] at h
      split at h
      all_goals simp_all
  | setClientVersions names => simp [stepOp] at h
  | setSimLog name => simp [stepOp] at h

theorem runOps_suiteIds_bound (a : Adapter) :
    ∀ (ops : List Op) (c : CState) (x : Nat),
      x ∈ suiteIdsOf (runOps a c ops).2.2 → c.suiteSeq < x := by
  intro ops
  induction ops with
  | nil =>
      intro c x hx
      simp [runOps, suiteIdsOf] at hx
  | cons op rest ih =>
      intro c x hx
      rcases hstep : stepOp a c op with ⟨c1, tr1, r1⟩
      rcases hrun : runOps a c1 rest with ⟨c2, tr2, rs⟩
      simp only [runOps, hstep, hrun] at hx
      have hmono := (stepOp_counters a c op).1
      rw [hstep] at hmono
      simp only at hmono
      cases r1 with
      | suiteId n =>
          have hn := stepOp_ret_suiteId a c op n (by rw [hstep])
          rw [hstep] at hn
          simp only at hn
          simp only [suiteIdsOf, List.filterMap_cons] at hx
          rcases List.mem_cons.mp hx with rfl | hx'
          · omega
          · have := ih c1 x (by rw [hrun]; simpa [suiteIdsOf] using hx')
            omega
      | testId n =>
          simp only [suiteIdsOf, List.filterMap_cons] at hx
          have := ih c1 x (by rw [hrun]; simpa [suiteIdsOf] using hx)
          omega
      | node i =>
          simp only [suiteIdsOf, List.filterMap_cons] at hx
          have := ih c1 x (by rw [hrun]; simpa [suiteIdsOf] using hx)
          omega
      | ok =>
          simp only [suiteIdsOf, List.filterMap_cons] at hx
          have := ih c1 x (by rw [hrun]; simpa [suiteIdsOf] using hx)
          omega
      | fail e =>
          simp only [suiteIdsOf, List.filterMap_cons] at hx
          have := ih c1 x (by rw [hrun]; simpa [suiteIdsOf] using hx)
          omega

theorem runOps_testIds_bound (a : Adapter) :
    ∀ (ops : List Op) (c : CState) (x : Nat),
      x ∈ testIdsOf (runOps a c ops).2.2 → c.testSeq < x := by
  intro ops
  induction ops with
  | nil =>
      intro c x hx
      simp [runOps, testIdsOf] at hx
  | cons op rest ih =>
      intro c x hx
      rcases hstep : stepOp a c op with ⟨c1, tr1, r1⟩
      rcases hrun : runOps a c1 rest with ⟨c2, tr2, rs⟩
      simp only [runOps, hstep, hrun] at hx
      have hmono := (stepOp_counters a c op).2
      rw [hstep] at hmono
      simp only at hmono
      cases r1 with
      | testId n =>
          have hn := stepOp_ret_testId a c op n (by rw [hstep])
          rw [hstep] at hn
          simp only at hn
          simp only [testIdsOf, List.filterMap_cons] at hx
          rcases List.mem_cons.mp hx with rfl | hx'
          · omega
          · have := ih c1 x (by rw [hrun]; simpa [testIdsOf] using hx')
            omega
      | suiteId n =>
          simp only [testIdsOf, List.filterMap_cons] at hx
          have := ih c1 x (by rw [hrun]; simpa [testIdsOf] using hx)
          omega
      | node i =>
          simp only [testIdsOf, List.filterMap_cons] at hx
          have := ih c1 x (by rw [hrun]; simpa [testIdsOf] using hx)
          omega
      | ok =>
          simp only [testIdsOf, List.filterMap_cons] at hx
          have := ih c1 x (by rw [hrun]; simpa [testIdsOf] using hx)
          omega
      | fail e =>
          simp only [testIdsOf, List.filterMap_cons] at hx
          have := ih c1 x (by rw [hrun]; simpa [testIdsOf] using hx)
          omega

theorem runOps_suiteIds_pairwise (a : Adapter) :
    ∀ (ops : List Op) (c : CState),
      List.Pairwise (· < ·) (suiteIdsOf (runOps a c ops).2.2) := by
  intro ops
  induction ops with
  | nil =>
      intro c
      simp [runOps, suiteIdsOf]
  | cons op rest ih =>
      intro c
      rcases hstep : stepOp a c op with ⟨c1, tr1, r1⟩
      rcases hrun : runOps a c1 rest with ⟨c2, tr2, rs⟩
      simp only [runOps, hstep, hrun]
      have htail : List.Pairwise (· < ·) (suiteIdsOf rs) := by
        have := ih c1
        rw [hrun] at this
        exact this
      cases r1 with
      | suiteId n =>
          have hn := stepOp_ret_suiteId a c op n (by rw [hstep])
          rw [hstep] at hn
          simp only at hn
          simp only [suiteIdsOf, List.filterMap_cons]
          refine List.Pairwise.cons ?_ htail
          intro y hy
          have hb := runOps_suiteIds_bound a rest c1 y (by rw [hrun]; exact hy)
          omega
      | testId n => simpa [suiteIdsOf, List.filterMap_cons] using htail
      | node i => simpa [suiteIdsOf, List.filterMap_cons] using htail
      | ok => simpa [suiteIdsOf, List.filterMap_cons] using htail
      | fail e => simpa [suiteIdsOf, List.filterMap_cons] using htail

theorem runOps_testIds_pairwise (a : Adapter) :
    ∀ (ops : List Op) (c : CState),
      List.Pairwise (· < ·) (testIdsOf (runOps a c ops).2.2) := by
  intro ops
  induction ops with
  | nil =>
      intro c
      simp [runOps, testIdsOf]
  | cons op rest ih =>
      intro c
      rcases hstep : stepOp a c op with ⟨c1, tr1, r1⟩
      rcases hrun : runOps a c1 rest with ⟨c2, tr2, rs⟩
      simp only [runOps, hstep, hrun]
      have htail : List.Pairwise (· < ·) (testIdsOf rs) := by
        have := ih c1
        rw [hrun] at this
        exact this
      cases r1 with
      | testId n =>
          have hn := stepOp_ret_testId a c op n (by rw [hstep])
          rw [hstep] at hn
          simp only at hn
          simp only [testIdsOf, List.filterMap_cons]
          refine List.Pairwise.cons ?_ htail
          intro y hy
          have hb := runOps_testIds_bound a rest c1 y (by rw [hrun]; exact hy)
          omega
      | suiteId n => simpa [testIdsOf, List.filterMap_cons] using htail
      | node i => simpa [testIdsOf, List.filterMap_cons] using htail
      | ok => simpa [testIdsOf, List.filterMap_cons] using htail
      | fail e => simpa [testIdsOf, List.filterMap_cons] using htail

/-! ## Claim C2 -/

/-- C2: across any sequence of control-plane calls, the suite ids returned by
`CreateSuite` are strictly increasing, the test ids returned by `CreateTest`
are strictly increasing across all suites (one global test counter), and in
particular no suite id and no test id is ever returned twice — even when the
sequence contains `EndSuite` deletions or `EndTest` finalizations. -/
theorem C2_id_monotonicity (a : Adapter) (c : CState) (ops : List Op) :
    List.Pairwise (· < ·) (suiteIdsOf (runOps a c ops).2.2) ∧
      List.Pairwise (· < ·) (testIdsOf (runOps a c ops).2.2) ∧
      (suiteIdsOf (runOps a c ops).2.2).Nodup ∧
      (testIdsOf (runOps a c ops).2.2).Nodup := by
  refine ⟨runOps_suiteIds_pairwise a ops c, runOps_testIds_pairwise a ops c, ?_, ?_⟩
  · exact (runOps_suiteIds_pairwise a ops c).imp (fun h => Nat.ne_of_lt h)
  · exact (runOps_testIds_pairwise a ops c).imp (fun h => Nat.ne_of_lt h)

/-! ## Claim C1 -/

/-- C1: whenever `EndTest(s, t, v)` succeeds, the suite's result document now
maps the decimal test id to a `TestCaseResult` carrying the test's name,
description, start timestamp, the end timestamp taken during the call, a
`SummaryResult` equal to the submitted verdict, and one `ClientInfo` entry
`{ip, name, instantiatedAt, logFile}` per node registered in the test at the
time of the call. -/
theorem C1_endTest_result_completeness (c : CState) (sid tid : Nat) (pass : Bool)
    (details : String) (s : SuiteRec) (t : TestRec) (r : SuiteResult)
    (hs : lookupA c.suites sid = some s) (ht : lookupA s.tests tid = some t)
    (hr : lookupA c.results sid = some r) :
    ∃ c' tr, Controller.EndTest c sid tid pass details = .ok (c', tr) ∧
      ∃ r', lookupA c'.results sid = some r' ∧
        ∃ caseResult, lookupA r'.testCases (toString tid) = some caseResult ∧
          caseResult.name = t.name ∧
          caseResult.description = t.description ∧
          caseResult.start = t.start ∧
          caseResult.finish = c.clock ∧
          caseResult.summaryResult = ⟨pass, details⟩ ∧
          (∀ nid, lookupA caseResult.clientInfo nid =
            (lookupA t.nodes nid).map Controller.clientInfoOfNode) := by
  refine ⟨endTestState c sid tid pass details s t,
    t.nodes.map (fun p => AdapterCall.removeContainer p.2.containerID),
    EndTest_total c sid tid pass details s t hs ht, ?_⟩
  refine ⟨{ r with
             testCases :=
               insertA r.testCases (toString tid)
                 ⟨t.name, t.description, t.start, c.clock, ⟨pass, details⟩,
                  t.nodes.map (fun p => (p.1, Controller.clientInfoOfNode p.2))⟩ }, ?_, ?_⟩
  · simpa [endTestState] using lookupA_updateA_self _ c.results sid r hr
  · refine ⟨_, lookupA_insertA_self r.testCases (toString tid) _, rfl, rfl, rfl, rfl, rfl, ?_⟩
    intro nid
    exact lookupA_map_value Controller.clientInfoOfNode t.nodes nid

/-- Witness for C1 at a concrete state: one suite with one test holding one
node. -/
def c1Node : NodeRec := ⟨"cidA", "clientA", "cidA", "10.0.0.7", "clients/clientA/client-cidA.log", 4⟩

def c1Test : TestRec := ⟨1, "t1", "d1", 3, 0, false, "", [("cidA", c1Node)]⟩

def c1Suite : SuiteRec := ⟨1, "s1", "ds", [(1, c1Test)]⟩

def c1Result : SuiteResult := ⟨1, "s1", "ds", [], "", []⟩

def c1State : CState :=
  { workspace := "ws"
    suiteSeq := 1
    testSeq := 1
    clock := 5
    suites := [(1, c1Suite)]
    clients := []
    networks := []
    results := [(1, c1Result)]
    imageOverrides := [] }

theorem C1_endTest_result_completeness_witness :
    ∃ c' tr, Controller.EndTest c1State 1 1 true "all good" = .ok (c', tr) ∧
      ∃ r', lookupA c'.results 1 = some r' ∧
        ∃ caseResult, lookupA r'.testCases (toString 1) = some caseResult ∧
          caseResult.name = c1Test.name ∧
          caseResult.description = c1Test.description ∧
          caseResult.start = c1Test.start ∧
          caseResult.finish = c1State.clock ∧
          caseResult.summaryResult = ⟨true, "all good"⟩ ∧
          (∀ nid, lookupA caseResult.clientInfo nid =
            (lookupA c1Test.nodes nid).map Controller.clientInfoOfNode) :=
  C1_endTest_result_completeness c1State 1 1 true "all good" c1Suite c1Test c1Result
    (by decide) (by decide) (by decide)

/-! ## Claim C5 -/

/-- `Controller.SaveResults`: the suite results the writer receives. -/
def SaveResults (c : CState) : List SuiteResult :=
  c.results.map Prod.snd

/-- C5: `EndSuite(id)` removes only the live suite record — the results map
(and with it everything `SaveResults` writes), the networks set, the
counters, the clients, the other suites and the clock are unchanged — it
fails with the not-found error exactly when `id` is not a live suite, and on
failure it returns no altered state at all. -/
theorem C5_endSuite_frame (c : CState) (id : Nat) :
    ((lookupA c.suites id).isSome →
        Controller.EndSuite c id = .ok { c with suites := eraseA c.suites id }) ∧
      (lookupA c.suites id = none →
        Controller.EndSuite c id = .error "suite not found") ∧
      (∀ c', Controller.EndSuite c id = .ok c' →
        c'.results = c.results ∧ SaveResults c' = SaveResults c ∧
          c'.networks = c.networks ∧ c'.suiteSeq = c.suiteSeq ∧ c'.testSeq = c.testSeq ∧
          c'.clients = c.clients ∧ c'.imageOverrides = c.imageOverrides ∧
          c'.workspace = c.workspace ∧ c'.clock = c.clock ∧
          (∀ sid, sid ≠ id → lookupA c'.suites sid = lookupA c.suites sid) ∧
          lookupA c'.suites id = none) := by
  refine ⟨?_, ?_, ?_⟩
  · intro hsome
    obtain ⟨s, hs⟩ := Option.isSome_iff_exists.mp hsome
    unfold Controller.EndSuite
    rw [hs]
  · intro hnone
    unfold Controller.EndSuite
    rw [hnone]
  · intro c' h
    obtain ⟨-, rfl⟩ := EndSuite_ok c id c' h
    refine ⟨rfl, rfl, rfl, rfl, rfl, rfl, rfl, rfl, rfl, ?_, ?_⟩
    · intro sid hne
      exact lookupA_eraseA_ne c.suites id sid (Ne.symm hne)
    · exact lookupA_eraseA_self c.suites id

theorem C5_endSuite_frame_witness :
    Controller.EndSuite c1State 1 = .ok { c1State with suites := eraseA c1State.suites 1 } ∧
      Controller.EndSuite c1State 2 = .error "suite not found" ∧
      ∀ c', Controller.EndSuite c1State 1 = .ok c' → c'.results = c1State.results :=
  ⟨(C5_endSuite_frame c1State 1).1 (by decide),
   (C5_endSuite_frame c1State 2).2.1 (by decide),
   fun c' h => ((C5_endSuite_frame c1State 1).2.2 c' h).1⟩

/-- Looking up the suite's result document after `endTestState`. -/
theorem endTestState_result_lookup (c : CState) (sid tid : Nat) (pass : Bool)
    (details : String) (s : SuiteRec) (t : TestRec) (r : SuiteResult)
    (hr : lookupA c.results sid = some r) :
    lookupA (endTestState c sid tid pass details s t).results sid =
      some { r with
               testCases :=
                 insertA r.testCases (toString tid)
                   ⟨t.name, t.description, t.start, c.clock, ⟨pass, details⟩,
                    t.nodes.map (fun p => (p.1, Controller.clientInfoOfNode p.2))⟩ } := by
  simpa [endTestState] using lookupA_updateA_self _ c.results sid r hr

/-! ## Claim C10 -/

/-- C10: `EndTest(s, t, v)` errors exactly when `s` is not a live suite or
`t` is absent from that suite's test map; success does not remove the test
from the map, so a second `EndTest` with the same ids succeeds as well,
overwriting the result document entry with the new verdict and a fresh end
timestamp and emitting the container `Remove` calls for the test's nodes a
second time. -/
theorem C10_endTest_repeatable (c : CState) (sid tid : Nat) (p1 : Bool) (d1 : String)
    (p2 : Bool) (d2 : String) :
    ((Controller.EndTest c sid tid p1 d1).isOk ↔
        ∃ s, lookupA c.suites sid = some s ∧ (lookupA s.tests tid).isSome) ∧
      (∀ s t r, lookupA c.suites sid = some s → lookupA s.tests tid = some t →
        lookupA c.results sid = some r →
        ∃ c1 tr1, Controller.EndTest c sid tid p1 d1 = .ok (c1, tr1) ∧
          tr1 = t.nodes.map (fun p => AdapterCall.removeContainer p.2.containerID) ∧
          (∃ s1 t1, lookupA c1.suites sid = some s1 ∧ lookupA s1.tests tid = some t1 ∧
            t1.nodes = t.nodes) ∧
          ∃ c2 tr2, Controller.EndTest c1 sid tid p2 d2 = .ok (c2, tr2) ∧
            tr2 = tr1 ∧ c1.clock = c.clock + 1 ∧
            ∃ r2, lookupA c2.results sid = some r2 ∧
              lookupA r2.testCases (toString tid) =
                some ⟨t.name, t.description, t.start, c1.clock, ⟨p2, d2⟩,
                      t.nodes.map (fun q => (q.1, Controller.clientInfoOfNode q.2))⟩) := by
  constructor
  · constructor
    · intro hok
      cases hET : Controller.EndTest c sid tid p1 d1 with
      | error e =>
          rw [hET] at hok
          simp [Except.isOk, Except.toBool] at hok
      | ok pr =>
          obtain ⟨c', tr⟩ := pr
          obtain ⟨s, t, hs, ht, -, -⟩ := EndTest_ok c sid tid p1 d1 c' tr hET
          exact ⟨s, hs, by simp [ht]⟩
    · rintro ⟨s, hs, hts⟩
      obtain ⟨t, ht⟩ := Option.isSome_iff_exists.mp hts
      rw [EndTest_total c sid tid p1 d1 s t hs ht]
      simp [Except.isOk, Except.toBool]
  · intro s t r hs ht hr
    refine ⟨endTestState c sid tid p1 d1 s t, _,
      EndTest_total c sid tid p1 d1 s t hs ht, rfl, ?_, ?_⟩
    · refine ⟨{ s with tests := insertA s.tests tid { t with pass := p1, details := d1, finish := c.clock } },
        { t with pass := p1, details := d1, finish := c.clock }, ?_, ?_, rfl⟩
      · exact lookupA_insertA_self c.suites sid _
      · exact lookupA_insertA_self s.tests tid _
    · have hs1 : lookupA (endTestState c sid tid p1 d1 s t).suites sid =
          some { s with tests := insertA s.tests tid { t with pass := p1, details := d1, finish := c.clock } } :=
        lookupA_insertA_self c.suites sid _
      have ht1 : lookupA (insertA s.tests tid { t with pass := p1, details := d1, finish := c.clock }) tid =
          some { t with pass := p1, details := d1, finish := c.clock } :=
        lookupA_insertA_self s.tests tid _
      refine ⟨_, _, EndTest_total (endTestState c sid tid p1 d1 s t) sid tid p2 d2 _ _ hs1 ht1,
        rfl, rfl, ?_⟩
      have hr1 := endTestState_result_lookup c sid tid p1 d1 s t r hr
      refine ⟨_,
        endTestState_result_lookup (endTestState c sid tid p1 d1 s t) sid tid p2 d2 _ _ _ hr1,
        ?_⟩
      exact lookupA_insertA_self _ (toString tid) _

theorem C10_endTest_repeatable_witness :
    (Controller.EndTest c1State 1 1 true "ok1").isOk ∧
      ∃ c1 tr1, Controller.EndTest c1State 1 1 true "ok1" = .ok (c1, tr1) ∧
        tr1 = c1Test.nodes.map (fun p => AdapterCall.removeContainer p.2.containerID) ∧
        (∃ s1 t1, lookupA c1.suites 1 = some s1 ∧ lookupA s1.tests 1 = some t1 ∧
          t1.nodes = c1Test.nodes) ∧
        ∃ c2 tr2, Controller.EndTest c1 1 1 false "ok2" = .ok (c2, tr2) ∧
          tr2 = tr1 ∧ c1.clock = c1State.clock + 1 ∧
          ∃ r2, lookupA c2.results 1 = some r2 ∧
            lookupA r2.testCases (toString 1) =
              some ⟨c1Test.name, c1Test.description, c1Test.start, c1.clock, ⟨false, "ok2"⟩,
                    c1Test.nodes.map (fun q => (q.1, Controller.clientInfoOfNode q.2))⟩ :=
  ⟨(C10_endTest_repeatable c1State 1 1 true "ok1" false "ok2").1.mpr
      ⟨c1Suite, by decide, by decide⟩,
   (C10_endTest_repeatable c1State 1 1 true "ok1" false "ok2").2 c1Suite c1Test c1Result
      (by decide) (by decide) (by decide)⟩

/-! ## Claim C4 -/

def c4Cfg : ClientLaunchConfig := ⟨"clientA", [], []⟩

/-- C4 counterexample: a `POST /testsuite/42/test/1/node` request against a
controller with no live suite 42 is answered with HTTP status 500 — not the
404 the claim asserts — though the body is the error JSON. -/
theorem C4_counterexample :
    (handleNodeLaunch okAdapter (initState "ws" []) 42 1 c4Cfg []).1.status = 500 ∧
      ¬ (handleNodeLaunch okAdapter (initState "ws" []) 42 1 c4Cfg []).1.status = 404 ∧
      (handleNodeLaunch okAdapter (initState "ws" []) 42 1 c4Cfg []).1 =
        writeErrorS 500 "suite not found" :=
  ⟨rfl, by decide, rfl⟩

/-- C4 amended: for every `POST /testsuite/{s}/test/{t}/node` request whose
suite id or test id does not name a live suite/test, the server responds
with HTTP status 500 — `handleNode` maps every `LaunchNode` failure,
including the not-found classifications, to `InternalServerError` — and a
JSON body `{"error":"<message>"}`; the controller state is unchanged and no
adapter call is made. -/
theorem C4_amended_node_launch_unknown_ids (a : Adapter) (c : CState) (sid tid : Nat)
    (cfg : ClientLaunchConfig) (files : List (String × String)) :
    (lookupA c.suites sid = none →
        handleNodeLaunch a c sid tid cfg files = (writeErrorS 500 "suite not found", c, [])) ∧
      (∀ s, lookupA c.suites sid = some s → lookupA s.tests tid = none →
        handleNodeLaunch a c sid tid cfg files = (writeErrorS 500 "test not found", c, [])) := by
  constructor
  · intro h
    simp only [handleNodeLaunch, Controller.LaunchNode, h]
  · intro s hs ht
    simp only [handleNodeLaunch, Controller.LaunchNode, hs, ht]

theorem C4_amended_node_launch_unknown_ids_witness :
    handleNodeLaunch okAdapter (initState "ws" []) 42 1 c4Cfg [] =
        (writeErrorS 500 "suite not found", initState "ws" [], []) ∧
      handleNodeLaunch okAdapter c1State 1 7 c4Cfg [] =
        (writeErrorS 500 "test not found", c1State, []) :=
  ⟨(C4_amended_node_launch_unknown_ids okAdapter (initState "ws" []) 42 1 c4Cfg []).1
      (by decide),
   (C4_amended_node_launch_unknown_ids okAdapter c1State 1 7 c4Cfg []).2 c1Suite
      (by decide) (by decide)⟩

/-! ## Claim C3 -/

theorem lookupA_isSome_mem {κ ν : Type} [DecidableEq κ] (l : List (κ × ν)) (k : κ)
    (h : (lookupA l k).isSome) : k ∈ l.map Prod.fst := by
  induction l with
  | nil => simp [lookupA] at h
  | cons p rest ih =>
      obtain ⟨k0, v0⟩ := p
      by_cases hk : k0 = k
      · simp [hk]
      · simp only [lookupA, hk, if_false] at h
        simpa using .inr (by simpa using ih h)

theorem insertIfAbsent_self_isSome {κ ν : Type} [DecidableEq κ] (l : List (κ × ν))
    (k : κ) (v : ν) : (lookupA (insertIfAbsent l k v) k).isSome := by
  unfold insertIfAbsent
  by_cases hs : (lookupA l k).isSome
  · simpa [hs] using hs
  · simp [hs, lookupA_insertA_self]

theorem foldl_insertIfAbsent_preserves {κ ν : Type} [DecidableEq κ] (names : List κ)
    (v : ν) : ∀ (m : List (κ × ν)) (k : κ), (lookupA m k).isSome →
      (lookupA (names.foldl (fun acc n => insertIfAbsent acc n v) m) k).isSome := by
  induction names with
  | nil => intro m k h; simpa using h
  | cons n rest ih =>
      intro m k h
      simp only [List.foldl_cons]
      refine ih (insertIfAbsent m n v) k ?_
      obtain ⟨w, hw⟩ := Option.isSome_iff_exists.mp h
      simp [lookupA_insertIfAbsent_of_some m n k v w hw]

theorem foldl_insertIfAbsent_mem {κ ν : Type} [DecidableEq κ] (names : List κ) (v : ν) :
    ∀ (m : List (κ × ν)) (k : κ), k ∈ names →
      (lookupA (names.foldl (fun acc n => insertIfAbsent acc n v) m) k).isSome := by
  induction names with
  | nil => intro m k h; simp at h
  | cons n rest ih =>
      intro m k h
      simp only [List.foldl_cons]
      rcases List.mem_cons.mp h with rfl | h'
      · exact foldl_insertIfAbsent_preserves rest v (insertIfAbsent m k v) k
          (insertIfAbsent_self_isSome m k v)
      · exact ih (insertIfAbsent m n v) k h'

/-- The run configuration's client list used for the C3 counterexample (the
`--client` flag names one client, `clientA`). -/
def c3RunClients : List String := ["clientA"]

/-- C3 counterexample: `CreateSuite` on a fresh controller returns suite id 1
but the allocated `SuiteResult` has an *empty* `clientVersions` map — the
run configuration's client `clientA` has no key — contradicting the claim
that every configured client is mapped to the empty string at allocation. -/
theorem C3_counterexample :
    c3RunClients = ["clientA"] ∧
      (Controller.CreateSuite (initState "ws" []) "rpc" "d").1 = 1 ∧
      (lookupA (Controller.CreateSuite (initState "ws" []) "rpc" "d").2.results 1).map
          (fun r => r.clientVersions) = some [] ∧
      (lookupA (Controller.CreateSuite (initState "ws" []) "rpc" "d").2.results 1).map
          (fun r => lookupA r.clientVersions "clientA") = some none := by
  refine ⟨rfl, rfl, ?_, ?_⟩ <;> decide

/-- C3 amended: `CreateSuite` never fails (it is a total function), returns
the fresh id `suiteSeq + 1` — unused whenever all live suite ids are bounded
by the counter — and allocates a `SuiteResult` whose `testCases` and
`clientVersions` maps are both empty; a key for every configured client
appears only once `SetClientVersions` runs, and then only in the suite
results held at that moment. -/
theorem C3_amended_createSuite (c : CState) (name desc : String) :
    (Controller.CreateSuite c name desc).1 = c.suiteSeq + 1 ∧
      ((∀ k ∈ c.suites.map Prod.fst, k ≤ c.suiteSeq) →
        lookupA c.suites (Controller.CreateSuite c name desc).1 = none) ∧
      lookupA (Controller.CreateSuite c name desc).2.results (c.suiteSeq + 1) =
        some ⟨c.suiteSeq + 1, name, desc, [], "", []⟩ ∧
      lookupA (Controller.CreateSuite c name desc).2.suites (c.suiteSeq + 1) =
        some ⟨c.suiteSeq + 1, name, desc, []⟩ ∧
      (∀ names nm sid r, nm ∈ names → lookupA c.results sid = some r →
        ∃ r', lookupA (Controller.SetClientVersions c names).results sid = some r' ∧
          (lookupA r'.clientVersions nm).isSome) := by
  refine ⟨rfl, ?_, ?_, ?_, ?_⟩
  · intro hbound
    cases hlk : lookupA c.suites (Controller.CreateSuite c name desc).1 with
    | none => rfl
    | some s =>
        have hmem := lookupA_isSome_mem c.suites (Controller.CreateSuite c name desc).1
          (by simp [hlk])
        have := hbound _ hmem
        simp [Controller.CreateSuite] at this
  · exact lookupA_insertA_self c.results (c.suiteSeq + 1) _
  · exact lookupA_insertA_self c.suites (c.suiteSeq + 1) _
  · intro names nm sid r hnm hr
    refine ⟨{ r with
               clientVersions :=
                 names.foldl (fun m n => insertIfAbsent m n "") r.clientVersions }, ?_, ?_⟩
    · have hmv := lookupA_map_value
        (fun rr =>
          { rr with
              clientVersions :=
                names.foldl (fun m n => insertIfAbsent m n "") rr.clientVersions })
        c.results sid
      simpa [Controller.SetClientVersions, hr] using hmv
    · exact foldl_insertIfAbsent_mem names "" r.clientVersions nm hnm

theorem C3_amended_createSuite_witness :
    (Controller.CreateSuite (initState "ws" []) "rpc" "d").1 = 1 ∧
      lookupA (initState "ws" []).suites 1 = none ∧
      lookupA (Controller.CreateSuite (initState "ws" []) "rpc" "d").2.results 1 =
        some ⟨1, "rpc", "d", [], "", []⟩ ∧
      ∃ r', lookupA (Controller.SetClientVersions c1State c3RunClients).results 1 = some r' ∧
        (lookupA r'.clientVersions "clientA").isSome :=
  ⟨(C3_amended_createSuite (initState "ws" []) "rpc" "d").1,
   by decide,
   (C3_amended_createSuite (initState "ws" []) "rpc" "d").2.2.1,
   (C3_amended_createSuite c1State "x" "y").2.2.2.2 c3RunClients "clientA" 1 c1Result
     (by decide) (by decide)⟩

/-! ## Claim C6 -/

theorem applyGlobStep_files (vd : String) (spec : ClientTestSpecS) (base k v : String)
    (h : lookupA spec.files k = some v) :
    lookupA (applyGlobStep vd spec base).files k = some v := by
  unfold applyGlobStep
  split
  · exact h
  · split
    · exact lookupA_insertIfAbsent_of_some _ _ _ _ _ h
    · exact lookupA_insertIfAbsent_of_some _ _ _ _ _ h

theorem applyGlobStep_env (vd : String) (spec : ClientTestSpecS) (base k v : String)
    (h : lookupA spec.environment k = some v) :
    lookupA (applyGlobStep vd spec base).environment k = some v := by
  unfold applyGlobStep
  split
  · exact h
  · split
    · exact lookupA_insertIfAbsent_of_some _ _ _ _ _ h
    · exact h

theorem foldl_applyGlobStep_files (vd : String) (bases : List String) :
    ∀ (spec : ClientTestSpecS) (k v : String), lookupA spec.files k = some v →
      lookupA (bases.foldl (applyGlobStep vd) spec).files k = some v := by
  induction bases with
  | nil => intro spec k v h; simpa using h
  | cons b rest ih =>
      intro spec k v h
      simpa [List.foldl_cons] using ih _ k v (applyGlobStep_files vd spec b k v h)

theorem foldl_applyGlobStep_env (vd : String) (bases : List String) :
    ∀ (spec : ClientTestSpecS) (k v : String), lookupA spec.environment k = some v →
      lookupA (bases.foldl (applyGlobStep vd) spec).environment k = some v := by
  induction bases with
  | nil => intro spec k v h; simpa using h
  | cons b rest ih =>
      intro spec k v h
      simpa [List.foldl_cons] using ih _ k v (applyGlobStep_env vd spec b k v h)

/-- C6: the vector auto-mount decoration (`applyDefaultClientFiles`, shared
by `LaunchClient` and the client-test auto-launch) never overwrites a file
key or environment key already present in the caller's spec — in particular
a caller-supplied `files["accounts.json"]` or
`environment["LABU_ACCOUNTS_PATH"]` survives even when the vector directory
contains `accounts.json`. -/
theorem C6_auto_mount_precedence (v : VectorEnv) (spec : ClientTestSpecS) :
    (∀ k val, lookupA spec.files k = some val →
        lookupA (applyDefaultClientFiles v spec).files k = some val) ∧
      (∀ k val, lookupA spec.environment k = some val →
        lookupA (applyDefaultClientFiles v spec).environment k = some val) := by
  constructor
  · intro k val h
    unfold applyDefaultClientFiles
    by_cases hdir : v.vectorDir = ""
    · simpa [hdir] using h
    · simp only [hdir, if_false]
      apply foldl_applyGlobStep_files
      by_cases hacc : v.hasAccounts <;> by_cases hgen : v.hasGenesis <;>
        simp only [hacc, hgen, if_true, if_false] <;>
        first
          | exact h
          | exact lookupA_insertIfAbsent_of_some _ _ _ _ _ h
          | exact lookupA_insertIfAbsent_of_some _ _ _ _ _
              (lookupA_insertIfAbsent_of_some _ _ _ _ _ h)
  · intro k val h
    unfold applyDefaultClientFiles
    by_cases hdir : v.vectorDir = ""
    · simpa [hdir] using h
    · simp only [hdir, if_false]
      apply foldl_applyGlobStep_env
      by_cases hacc : v.hasAccounts <;> by_cases hgen : v.hasGenesis <;>
        simp only [hacc, hgen, if_true, if_false] <;>
        first
          | exact h
          | exact lookupA_insertIfAbsent_of_some _ _ _ _ _ h
          | exact lookupA_insertIfAbsent_of_some _ _ _ _ _
              (lookupA_insertIfAbsent_of_some _ _ _ _ _ h)

/-- A caller's spec that already pins `accounts.json` and
`LABU_ACCOUNTS_PATH`. -/
def c6Spec : ClientTestSpecS :=
  { name := "n"
    description := "d"
    client := "clientA"
    networks := []
    environment := [("LABU_ACCOUNTS_PATH", "/custom/accounts.json")]
    files := [("accounts.json", "/caller/accounts.json")]
    run := fun t _ => t }

/-- A vector directory that does contain `accounts.json`. -/
def c6Vec : VectorEnv := ⟨"/v", true, false, ["accounts.json", "config.json"]⟩

theorem C6_auto_mount_precedence_witness :
    lookupA (applyDefaultClientFiles c6Vec c6Spec).files "accounts.json" =
        some "/caller/accounts.json" ∧
      lookupA (applyDefaultClientFiles c6Vec c6Spec).environment "LABU_ACCOUNTS_PATH" =
        some "/custom/accounts.json" :=
  ⟨(C6_auto_mount_precedence c6Vec c6Spec).1 "accounts.json" "/caller/accounts.json"
      (by decide),
   (C6_auto_mount_precedence c6Vec c6Spec).2 "LABU_ACCOUNTS_PATH" "/custom/accounts.json"
      (by decide)⟩

/-! ## Claim C7 -/

def isCreateNet (n : String) : AdapterCall → Bool
  | .createNetwork m => m = n
  | _ => false

def isRemoveNet (n : String) : AdapterCall → Bool
  | .removeNetwork m => m = n
  | _ => false

/-- An adapter trace is network-disciplined for `n` when, starting from
activity flag `active`, a `createNetwork n` invocation only happens while
`n` is inactive, activation being set by create and cleared by remove. -/
def okFrom (n : String) : Bool → List AdapterCall → Prop
  | _, [] => True
  | active, x :: rest =>
      if isRemoveNet n x then okFrom n false rest
      else if isCreateNet n x then active = false ∧ okFrom n true rest
      else okFrom n active rest

theorem okFrom_true_zero (n : String) :
    ∀ (tr : List AdapterCall), okFrom n true tr →
      (∀ x ∈ tr, isRemoveNet n x = false) → tr.countP (isCreateNet n) = 0 := by
  intro tr
  induction tr with
  | nil => intro _ _; simp
  | cons x rest ih =>
      intro hok hnr
      have hxr : isRemoveNet n x = false := hnr x (by simp)
      by_cases hxc : isCreateNet n x = true
      · simp only [okFrom, hxr, hxc] at hok
        simp at hok
      · simp only [Bool.not_eq_true] at hxc
        simp only [okFrom, hxr, hxc, Bool.false_eq_true, if_false] at hok
        have := ih hok (fun y hy => hnr y (by simp [hy]))
        simp [List.countP_cons, hxc, this]

theorem okFrom_count_le_one (n : String) :
    ∀ (tr : List AdapterCall) (b : Bool), okFrom n b tr →
      (∀ x ∈ tr, isRemoveNet n x = false) → tr.countP (isCreateNet n) ≤ 1 := by
  intro tr
  induction tr with
  | nil => intro b _ _; simp
  | cons x rest ih =>
      intro b hok hnr
      have hxr : isRemoveNet n x = false := hnr x (by simp)
      by_cases hxc : isCreateNet n x = true
      · simp only [okFrom, hxr, hxc, Bool.false_eq_true, if_false, if_true] at hok
        have h0 := okFrom_true_zero n rest hok.2 (fun y hy => hnr y (by simp [hy]))
        simp [List.countP_cons, hxc, h0]
      · simp only [Bool.not_eq_true] at hxc
        simp only [okFrom, hxr, hxc, Bool.false_eq_true, if_false] at hok
        have := ih b hok (fun y hy => hnr y (by simp [hy]))
        simp [List.countP_cons, hxc]
        omega

theorem okFrom_suffix (n : String) :
    ∀ (t1 t2 : List AdapterCall) (b : Bool), okFrom n b (t1 ++ t2) →
      ∃ b2, okFrom n b2 t2 := by
  intro t1
  induction t1 with
  | nil => intro t2 b h; exact ⟨b, h⟩
  | cons x rest ih =>
      intro t2 b h
      rw [List.cons_append] at h
      by_cases hxr : isRemoveNet n x = true
      · simp only [okFrom, hxr, if_true] at h
        exact ih t2 false h
      · simp only [Bool.not_eq_true] at hxr
        by_cases hxc : isCreateNet n x = true
        · simp only [okFrom, hxr, hxc, Bool.false_eq_true, if_false, if_true] at h
          exact ih t2 true h.2
        · simp only [Bool.not_eq_true] at hxc
          simp only [okFrom, hxr, hxc, Bool.false_eq_true, if_false] at h
          exact ih t2 b h

/-- Segments of a disciplined trace that contain no `removeNetwork n` hold at
most one `createNetwork n`. -/
theorem okFrom_segment (n : String) (tr t1 t2 : List AdapterCall) (b : Bool)
    (hok : okFrom n b tr) (hsplit : tr = t1 ++ t2)
    (hnr : ∀ x ∈ t2, isRemoveNet n x = false) :
    t2.countP (isCreateNet n) ≤ 1 := by
  subst hsplit
  obtain ⟨b2, hb2⟩ := okFrom_suffix n t1 t2 b hok
  exact okFrom_count_le_one n t2 b2 hb2 hnr

theorem okFrom_neutral_append (n : String) :
    ∀ (l : List AdapterCall) (b : Bool) (rest : List AdapterCall),
      (∀ x ∈ l, isCreateNet n x = false ∧ isRemoveNet n x = false) →
      okFrom n b rest → okFrom n b (l ++ rest) := by
  intro l
  induction l with
  | nil => intro b rest _ h; simpa using h
  | cons x xs ih =>
      intro b rest hneu h
      have hx := hneu x (by simp)
      unfold okFrom
      simp only [List.cons_append, hx.1, hx.2, Bool.false_eq_true, if_false]
      exact ih b rest (fun y hy => hneu y (by simp [hy])) h

theorem buildStep_trace_neutral (a : Adapter) (ov dir client n : String) :
    ∀ x ∈ (Controller.buildStep a ov dir client).2,
      isCreateNet n x = false ∧ isRemoveNet n x = false := by
  unfold Controller.buildStep
  repeat' (first | split | simp only [])
  all_goals intro x hx
  all_goals simp at hx
  all_goals subst hx
  all_goals simp [isCreateNet, isRemoveNet]

theorem LaunchNode_trace_neutral (a : Adapter) (c : CState) (s t : Nat)
    (cfg : ClientLaunchConfig) (files : List (String × String)) (n : String) :
    ∀ x ∈ (Controller.LaunchNode a c s t cfg files).2.2,
      isCreateNet n x = false ∧ isRemoveNet n x = false := by
  intro x
  unfold Controller.LaunchNode
  cases hs : lookupA c.suites s with
  | none => intro hx; simp at hx
  | some su =>
  simp only []
  cases ht : lookupA su.tests t with
  | none => intro hx; simp at hx
  | some te =>
  simp only []
  cases hc : lookupA c.clients cfg.client with
  | none => intro hx; simp at hx
  | some cd =>
  simp only []
  rcases hbs : Controller.buildStep a ((lookupA c.imageOverrides cfg.client).getD "")
      cd.dir cfg.client with ⟨bres, btr⟩
  have hbtr := buildStep_trace_neutral a ((lookupA c.imageOverrides cfg.client).getD "")
      cd.dir cfg.client n
  rw [hbs] at hbtr
  simp only at hbtr
  cases bres with
  | error e =>
      simp only []
      intro hx
      exact hbtr x hx
  | ok imageTag =>
      simp only []
      split
      all_goals intro hx
      all_goals rcases List.mem_append.mp hx with h1 | h2
      all_goals first
        | exact hbtr x h1
        | (simp only [List.mem_singleton] at h2; subst h2; simp [isCreateNet, isRemoveNet])
        | (simp only [List.mem_cons, List.not_mem_nil, or_false] at h2 <;>
            rcases h2 with rfl | rfl <;> simp [isCreateNet, isRemoveNet])

theorem removes_neutral (l : List (String × NodeRec)) (n : String) :
    ∀ x ∈ l.map (fun p => AdapterCall.removeContainer p.2.containerID),
      isCreateNet n x = false ∧ isRemoveNet n x = false := by
  intro x hx
  simp only [List.mem_map] at hx
  obtain ⟨p, -, rfl⟩ := hx
  simp [isCreateNet, isRemoveNet]

theorem CreateNetwork_cases (a : Adapter) (c : CState) (m : String) :
    (m ∈ c.networks ∧ Controller.CreateNetwork a c m = (.ok (), c, [])) ∨
      (¬ m ∈ c.networks ∧
        Controller.CreateNetwork a c m =
          (a.createNetwork m, { c with networks := m :: c.networks },
           [.createNetwork m])) := by
  unfold Controller.CreateNetwork
  by_cases h : m ∈ c.networks
  · exact .inl ⟨h, by simp [h]⟩
  · exact .inr ⟨h, by simp [h]⟩

theorem okFrom_create_step (n m : String) (c : CState) (tr2 : List AdapterCall)
    (hmem : ¬ m ∈ c.networks)
    (htail : okFrom n (decide (n ∈ m :: c.networks)) tr2) :
    okFrom n (decide (n ∈ c.networks)) (AdapterCall.createNetwork m :: tr2) := by
  by_cases hmn : m = n
  · subst hmn
    have h2 : okFrom m true tr2 := by simpa using htail
    simp [okFrom, isCreateNet, isRemoveNet, hmem, h2]
  · have hmm : (n ∈ m :: c.networks) ↔ (n ∈ c.networks) := by
      constructor
      · intro h
        rcases List.mem_cons.mp h with h' | h'
        · exact absurd h'.symm hmn
        · exact h'
      · intro h
        exact List.mem_cons.mpr (.inr h)
    have h2 : okFrom n (decide (n ∈ c.networks)) tr2 := by
      rwa [decide_eq_decide.mpr hmm] at htail
    simp [okFrom, isCreateNet, isRemoveNet, hmn, h2]

theorem okFrom_remove_step (n m : String) (c : CState) (tr2 : List AdapterCall)
    (htail : okFrom n
      (decide (n ∈ c.networks.filter (fun x => ¬ (x = m)))) tr2) :
    okFrom n (decide (n ∈ c.networks)) (AdapterCall.removeNetwork m :: tr2) := by
  by_cases hmn : m = n
  · subst hmn
    have hnm : ¬ m ∈ c.networks.filter (fun x => ¬ (x = m)) := by
      simp [List.mem_filter]
    have h2 : okFrom m false tr2 := by simpa [hnm] using htail
    simp [okFrom, isRemoveNet, h2]
  · have hmm : (n ∈ c.networks.filter (fun x => ¬ (x = m))) ↔ (n ∈ c.networks) := by
      constructor
      · intro h
        exact (List.mem_filter.mp h).1
      · intro h
        refine List.mem_filter.mpr ⟨h, ?_⟩
        have hnm : ¬ n = m := fun hq => hmn hq.symm
        simp [hnm]
    have h2 : okFrom n (decide (n ∈ c.networks)) tr2 := by
      rwa [decide_eq_decide.mpr hmm] at htail
    simp [okFrom, isCreateNet, isRemoveNet, hmn, h2]

/-- Every operation sequence emits a network-disciplined adapter trace,
starting from the activity status `n ∈ networks` of the initial state. -/
theorem runOps_okFrom (a : Adapter) :
    ∀ (ops : List Op) (c : CState) (n : String),
      okFrom n (decide (n ∈ c.networks)) (runOps a c ops).2.1 := by
  intro ops
  induction ops with
  | nil => intro c n; simp [runOps, okFrom]
  | cons op rest ih =>
      intro c n
      rcases hstep : stepOp a c op with ⟨c1, tr1, r1⟩
      rcases hrun : runOps a c1 rest with ⟨c2, tr2, rs⟩
      simp only [runOps, hstep, hrun]
      have htail : okFrom n (decide (n ∈ c1.networks)) tr2 := by
        have := ih c1 n
        rw [hrun] at this
        exact this
      cases op with
      | createSuite nm ds =>
          simp only [stepOp, Controller.CreateSuite, Prod.mk.injEq] at hstep
          obtain ⟨hc1, htr1, -⟩ := hstep
          subst hc1
          subst htr1
          simpa using htail
      | endSuite id =>
          simp only [stepOp] at hstep
          split at hstep
          · rename_i c' hES
            simp only [Prod.mk.injEq] at hstep
            obtain ⟨hc1, htr1, -⟩ := hstep
            subst hc1
            subst htr1
            obtain ⟨-, rfl⟩ := EndSuite_ok c id c' hES
            simpa using htail
          · simp only [Prod.mk.injEq] at hstep
            obtain ⟨hc1, htr1, -⟩ := hstep
            subst hc1
            subst htr1
            simpa using htail
      | createTest sid nm ds =>
          simp only [stepOp] at hstep
          split at hstep
          · rename_i id c' hCT
            simp only [Prod.mk.injEq] at hstep
            obtain ⟨hc1, htr1, -⟩ := hstep
            subst hc1
            subst htr1
            obtain ⟨s, -, -, rfl⟩ := CreateTest_ok c sid nm ds id c' hCT
            simpa using htail
          · simp only [Prod.mk.injEq] at hstep
            obtain ⟨hc1, htr1, -⟩ := hstep
            subst hc1
            subst htr1
            simpa using htail
      | endTest sid tid pass details =>
          simp only [stepOp] at hstep
          split at hstep
          · rename_i c' tr hET
            simp only [Prod.mk.injEq] at hstep
            obtain ⟨hc1, htr1, -⟩ := hstep
            subst hc1
            subst htr1
            obtain ⟨s, t, -, -, rfl, rfl⟩ := EndTest_ok c sid tid pass details c' tr hET
            refine okFrom_neutral_append n _ _ tr2 (removes_neutral t.nodes n) ?_
            simpa [endTestState] using htail
          · simp only [Prod.mk.injEq] at hstep
            obtain ⟨hc1, htr1, -⟩ := hstep
            subst hc1
            subst htr1
            simpa using htail
      | launchNode sid tid cfg files =>
          have hnet := (LaunchNode_state a c sid tid cfg files).2.2
          have hneu := LaunchNode_trace_neutral a c sid tid cfg files n
          simp only [stepOp] at hstep
          split at hstep
          all_goals rename_i info c' tr heq
          all_goals simp only [Prod.mk.injEq] at hstep
          all_goals obtain ⟨hc1, htr1, -⟩ := hstep
          all_goals subst hc1
          all_goals subst htr1
          all_goals rw [heq] at hnet hneu
          all_goals simp only at hnet hneu
          all_goals refine okFrom_neutral_append n _ _ tr2 hneu ?_
          all_goals rw [hnet] at htail
          all_goals exact htail
      | createNetwork m =>
          simp only [stepOp] at hstep
          rcases CreateNetwork_cases a c m with ⟨hmem, hCN⟩ | ⟨hmem, hCN⟩
          · rw [hCN] at hstep
            simp only [Prod.mk.injEq] at hstep
            obtain ⟨hc1, htr1, -⟩ := hstep
            subst hc1
            subst htr1
            simpa using htail
          · rw [hCN] at hstep
            rcases hres : a.createNetwork m with e | u
            all_goals rw [hres] at hstep
            all_goals simp only [Prod.mk.injEq] at hstep
            all_goals obtain ⟨hc1, htr1, -⟩ := hstep
            all_goals subst hc1
            all_goals subst htr1
            all_goals exact okFrom_create_step n m c tr2 hmem (by simpa using htail)
      | removeNetwork m =>
          simp only [stepOp, Controller.RemoveNetwork] at hstep
          rcases hres : a.removeNetwork m with e | u
          all_goals rw [hres] at hstep
          all_goals simp only [Prod.mk.injEq] at hstep
          all_goals obtain ⟨hc1, htr1, -⟩ := hstep
          all_goals subst hc1
          all_goals subst htr1
          all_goals exact okFrom_remove_step n m c tr2 (by simpa using htail)
      | removeNode id =>
          simp only [stepOp, Controller.RemoveNode] at hstep
          rcases hres : a.removeContainer id with e | u
          all_goals rw [hres] at hstep
          all_goals simp only [Prod.mk.injEq] at hstep
          all_goals obtain ⟨hc1, htr1, -⟩ := hstep
          all_goals subst hc1
          all_goals subst htr1
          all_goals simpa [okFrom, isCreateNet, isRemoveNet] using htail
      | setClientVersions names =>
          simp only [stepOp, Controller.SetClientVersions, Prod.mk.injEq] at hstep
          obtain ⟨hc1, htr1, -⟩ := hstep
          subst hc1
          subst htr1
          simpa using htail
      | setSimLog nm =>
          simp only [stepOp, Controller.SetSimLog, Prod.mk.injEq] at hstep
          obtain ⟨hc1, htr1, -⟩ := hstep
          subst hc1
          subst htr1
          simpa using htail

/-- C7: `CreateNetwork(n)` succeeds whenever the adapter's create-network
call does, a second `CreateNetwork(n)` with `n` already active returns
success without touching state or invoking the adapter, and across any
operation sequence every adapter-trace segment free of `removeNetwork n`
holds at most one `createNetwork n` invocation. -/
theorem C7_createNetwork_idempotent (a : Adapter) (c : CState) (n : String)
    (hok : a.createNetwork n = .ok ()) :
    (Controller.CreateNetwork a c n).1 = .ok () ∧
      (n ∈ c.networks → Controller.CreateNetwork a c n = (.ok (), c, [])) ∧
      (∀ (ops : List Op) (t1 t2 : List AdapterCall),
        (runOps a c ops).2.1 = t1 ++ t2 →
        (∀ x ∈ t2, isRemoveNet n x = false) →
        t2.countP (isCreateNet n) ≤ 1) := by
  refine ⟨?_, ?_, ?_⟩
  · rcases CreateNetwork_cases a c n with ⟨hmem, hCN⟩ | ⟨hmem, hCN⟩
    · rw [hCN]
    · rw [hCN]
      simpa using hok
  · intro hmem
    rcases CreateNetwork_cases a c n with ⟨-, hCN⟩ | ⟨hmem', -⟩
    · exact hCN
    · exact absurd hmem hmem'
  · intro ops t1 t2 hsplit hnr
    exact okFrom_segment n (runOps a c ops).2.1 t1 t2 (decide (n ∈ c.networks))
      (runOps_okFrom a ops c n) hsplit hnr

theorem C7_createNetwork_idempotent_witness :
    (Controller.CreateNetwork okAdapter (initState "ws" []) "net1").1 = .ok () ∧
      Controller.CreateNetwork okAdapter
          (Controller.CreateNetwork okAdapter (initState "ws" []) "net1").2.1 "net1" =
        (.ok (), (Controller.CreateNetwork okAdapter (initState "ws" []) "net1").2.1, []) ∧
      ((runOps okAdapter (initState "ws" [])
            [.createNetwork "net1", .createNetwork "net1", .createNetwork "net1"]).2.1).countP
          (isCreateNet "net1") ≤ 1 :=
  ⟨(C7_createNetwork_idempotent okAdapter (initState "ws" []) "net1" rfl).1,
   (C7_createNetwork_idempotent okAdapter
      (Controller.CreateNetwork okAdapter (initState "ws" []) "net1").2.1 "net1" rfl).2.1
     (by decide),
   (C7_createNetwork_idempotent okAdapter (initState "ws" []) "net1" rfl).2.2
     [.createNetwork "net1", .createNetwork "net1", .createNetwork "net1"] [] _
     (by simp) (by decide)⟩

/-! ## Claim C8 -/

/-- C8: the environment the run driver injects into the simulator container
uses exactly the names `LABU_SIMULATOR` (the API base URL),
`LABU_TEST_PATTERN`, `LABU_PARALLELISM`, `LABU_RANDOM_SEED`,
`LABU_LOGLEVEL`, `LABU_CLIENTS` (comma-separated client names) and — only
when a vectors directory is given — `LABU_VECTOR_DIR = "/vectors"`; the
names the SDK reads (`EnvSimulator`, `EnvTestPattern`, `EnvClients`,
`EnvVectorDir` in `labusim`) all resolve against it. -/
theorem C8_sim_env_names (o : RunOpts) :
    (simEnv o).map Prod.fst =
        ["LABU_SIMULATOR", "LABU_TEST_PATTERN", "LABU_PARALLELISM", "LABU_RANDOM_SEED",
         "LABU_LOGLEVEL", "LABU_CLIENTS"] ++
          (if o.vectorsDir = "" then [] else ["LABU_VECTOR_DIR"]) ∧
      lookupA (simEnv o) EnvSimulator = some ("http://" ++ o.simulatorAddr) ∧
      lookupA (simEnv o) EnvTestPattern = some o.limitPattern ∧
      lookupA (simEnv o) EnvClients = some (joinCSV o.clients) ∧
      (¬ o.vectorsDir = "" → lookupA (simEnv o) EnvVectorDir = some "/vectors") ∧
      (o.vectorsDir = "" → lookupA (simEnv o) EnvVectorDir = none) := by
  by_cases h : o.vectorsDir = "" <;>
    simp [simEnv, h, EnvSimulator, EnvTestPattern, EnvClients, EnvVectorDir, lookupA]

theorem C8_sim_env_names_witness :
    lookupA (simEnv ⟨"127.0.0.1:8000", "rpc/.*", 1, 7, 2, ["clientA"], "/vec"⟩)
        EnvVectorDir = some "/vectors" ∧
      lookupA (simEnv ⟨"127.0.0.1:8000", "rpc/.*", 1, 7, 2, ["clientA"], ""⟩)
        EnvVectorDir = none :=
  ⟨(C8_sim_env_names ⟨"127.0.0.1:8000", "rpc/.*", 1, 7, 2, ["clientA"], "/vec"⟩).2.2.2.2.1
      (by decide),
   (C8_sim_env_names ⟨"127.0.0.1:8000", "rpc/.*", 1, 7, 2, ["clientA"], ""⟩).2.2.2.2.2 rfl⟩

/-! ## Claim C9 -/

theorem LaunchNode_error_state (a : Adapter) (c : CState) (s t : Nat)
    (cfg : ClientLaunchConfig) (files : List (String × String)) (e : String) (c' : CState)
    (tr : List AdapterCall)
    (h : Controller.LaunchNode a c s t cfg files = (.error e, c', tr)) : c' = c := by
  unfold Controller.LaunchNode at h
  repeat' (first | split at h | simp only [] at h)
  all_goals simp only [Prod.mk.injEq] at h
  all_goals simp_all

theorem endSuiteIgnore_lookup (c : CState) (sid : Nat) :
    lookupA (endSuiteIgnore c sid).suites sid = none := by
  unfold endSuiteIgnore
  cases hES : Controller.EndSuite c sid with
  | ok c' =>
      obtain ⟨-, rfl⟩ := EndSuite_ok c sid c' hES
      exact lookupA_eraseA_self c.suites sid
  | error e =>
      exact (EndSuite_error c sid e hES).1

/-- Whatever the test bodies do, `RunSuiteM` ends with the deferred
`endSuite`, so the suite it created is no longer live afterwards. -/
theorem RunSuiteM_suite_deleted (a : Adapter) (sim : Option (String → Bool)) (v : VectorEnv)
    (c : CState) (suite : SDKSuite) :
    lookupA ((RunSuiteM a sim v c suite).2.1).suites (c.suiteSeq + 1) = none := by
  unfold RunSuiteM
  simp only [Controller.CreateSuite]
  repeat' (first | split | simp only [])
  all_goals exact endSuiteIgnore_lookup _ _

/-- C9: when the auto-launch of a client test fails, `RunSuite` marks the
test failed with `client launch failed: <error>` as its details, issues
`EndTest` with `pass = false` (which succeeds and records that verdict on
the live test), and continues with the remaining client tests from the
resulting state instead of aborting; independently, the deferred suite
deletion at the end of `RunSuiteM` always removes the suite it created. -/
theorem C9_launch_failure_continues (a : Adapter) (sim : Option (String → Bool))
    (v : VectorEnv) (suiteId : Nat) (c : CState) (spec : ClientTestSpecS)
    (rest : List ClientTestSpecS) (tid : Nat) (c1 : CState) (e : String) (c2 : CState)
    (tr2 : List AdapterCall)
    (hmatch : matchName sim spec.name = true)
    (hct : Controller.CreateTest c suiteId spec.name spec.description = .ok (tid, c1))
    (hlaunch : launchClientM a v c1 suiteId tid spec = (.error e, c2, tr2)) :
    ∃ c3 tr3,
      Controller.EndTest c2 suiteId tid false ("client launch failed: " ++ e) =
          .ok (c3, tr3) ∧
      (∃ s3 t3, lookupA c3.suites suiteId = some s3 ∧ lookupA s3.tests tid = some t3 ∧
        t3.pass = false ∧ t3.details = "client launch failed: " ++ e) ∧
      runClientTestsM a sim v suiteId c (spec :: rest) =
        ((runClientTestsM a sim v suiteId c3 rest).1,
         (runClientTestsM a sim v suiteId c3 rest).2.1,
         tr2 ++ tr3 ++ (runClientTestsM a sim v suiteId c3 rest).2.2) ∧
      (∀ (c0 : CState) (suite : SDKSuite),
        lookupA ((RunSuiteM a sim v c0 suite).2.1).suites (c0.suiteSeq + 1) = none) := by
  have hc2 : c2 = c1 := by
    simp only [launchClientM] at hlaunch
    exact LaunchNode_error_state a c1 suiteId tid _ _ e c2 tr2 hlaunch
  subst hc2
  obtain ⟨s, hsus, htid, hc1eq⟩ := CreateTest_ok c suiteId spec.name spec.description tid c2 hct
  have hs1 : lookupA c2.suites suiteId =
      some { s with
               tests :=
                 insertA s.tests (c.testSeq + 1)
                   ⟨c.testSeq + 1, spec.name, spec.description, c.clock, 0, false, "", []⟩ } := by
    rw [hc1eq]
    exact lookupA_insertA_self c.suites suiteId _
  have ht1 : lookupA
      (insertA s.tests (c.testSeq + 1)
        ⟨c.testSeq + 1, spec.name, spec.description, c.clock, 0, false, "", []⟩)
      tid = some ⟨c.testSeq + 1, spec.name, spec.description, c.clock, 0, false, "", []⟩ := by
    rw [htid]
    exact lookupA_insertA_self s.tests (c.testSeq + 1) _
  have hET := EndTest_total c2 suiteId tid false ("client launch failed: " ++ e) _ _ hs1 ht1
  refine ⟨_, _, hET, ?_, ?_, ?_⟩
  · refine ⟨_, ⟨c.testSeq + 1, spec.name, spec.description, c.clock, c2.clock, false,
        "client launch failed: " ++ e, []⟩,
      lookupA_insertA_self c2.suites suiteId _, ?_, rfl, rfl⟩
    exact lookupA_insertA_self _ tid _
  · simp only [runClientTestsM, hmatch, if_true, hct, hlaunch, TRec.failWith, hET]
  · intro c0 suite
    exact RunSuiteM_suite_deleted a sim v c0 suite

/-- Controller state for the C9 witness: one live suite, no known clients,
so any launch fails with `unknown client`. -/
def c9State : CState :=
  { workspace := "ws"
    suiteSeq := 1
    testSeq := 0
    clock := 0
    suites := [(1, ⟨1, "s", "d", []⟩)]
    clients := []
    networks := []
    results := [(1, ⟨1, "s", "d", [], "", []⟩)]
    imageOverrides := [] }

def c9Spec : ClientTestSpecS :=
  { name := "ct"
    description := "dt"
    client := "nosuch"
    networks := []
    environment := []
    files := []
    run := fun t _ => t }

def c9Vec : VectorEnv := ⟨"", false, false, []⟩

/-- The state after creating the witness test. -/
def c9c1 : CState :=
  match Controller.CreateTest c9State 1 c9Spec.name c9Spec.description with
  | .ok (_, c') => c'
  | .error _ => c9State

theorem C9_launch_failure_continues_witness :
    ∃ c3 tr3,
      Controller.EndTest c9c1 1 1 false ("client launch failed: " ++ "unknown client") =
          .ok (c3, tr3) ∧
      (∃ s3 t3, lookupA c3.suites 1 = some s3 ∧ lookupA s3.tests 1 = some t3 ∧
        t3.pass = false ∧ t3.details = "client launch failed: " ++ "unknown client") ∧
      runClientTestsM okAdapter none c9Vec 1 c9State (c9Spec :: []) =
        ((runClientTestsM okAdapter none c9Vec 1 c3 []).1,
         (runClientTestsM okAdapter none c9Vec 1 c3 []).2.1,
         [] ++ tr3 ++ (runClientTestsM okAdapter none c9Vec 1 c3 []).2.2) ∧
      (∀ (c0 : CState) (suite : SDKSuite),
        lookupA ((RunSuiteM okAdapter none c9Vec c0 suite).2.1).suites (c0.suiteSeq + 1) =
          none) :=
  C9_launch_failure_continues okAdapter none c9Vec 1 c9State c9Spec [] 1 c9c1
    "unknown client" c9c1 [] rfl rfl rfl

end Labu
